import Mathlib

/-!
Verification of the metadata-extraction core of a CLI pipeline for
scientific-paper analysis.  The TypeScript sources `src/ensemble.ts`,
`src/parsers/pdf.ts` and `src/utils.ts` are shallowly embedded below:
strings are `List Char`, JavaScript numbers used for confidences/scores are
`ℚ`, the wall-clock year (`new Date().getFullYear()`) is an explicit `now`
parameter, and JavaScript exceptions are modelled with `Except String`.
Regular expressions are embedded either by a small backtracking engine
(`Reg` / `runR`, faithful to JavaScript leftmost-first greedy matching,
including word boundaries and capture groups) or, for the simple anchored
date-shape patterns, by direct structural matchers.
-/

/-- Text is modelled as a list of characters. -/
abbrev Str := List Char

/-- JavaScript `\d` (`'0' ≤ c && c ≤ '9'`, stated on code points). -/
def isDigitCh (c : Char) : Bool := 48 ≤ c.toNat && c.toNat ≤ 57

/-- JavaScript `\w` (`[A-Za-z0-9_]`). -/
def isWordCh (c : Char) : Bool :=
  ('a' ≤ c && c ≤ 'z') || ('A' ≤ c && c ≤ 'Z') || isDigitCh c || c = '_'

/-- JavaScript `\s` (ASCII whitespace plus no-break space; the rare other
Unicode space characters do not occur in the texts the claims range over). -/
def isSpaceCh (c : Char) : Bool :=
  c = ' ' || c = '\t' || c = '\n' || c = '\r' || c = '\x0b' || c = '\x0c' || c = ' '

/-- ASCII letter (the `[A-Za-z]` class). -/
def isLetterCh (c : Char) : Bool :=
  ('a' ≤ c && c ≤ 'z') || ('A' ≤ c && c ≤ 'Z')

/-- Lowercasing, as `String.prototype.toLowerCase` on the ASCII range. -/
def lowerStr (s : Str) : Str := s.map Char.toLower

/-- `String.prototype.trim`. -/
def jsTrim (s : Str) : Str :=
  ((s.dropWhile isSpaceCh).reverse.dropWhile isSpaceCh).reverse

/-- `split(/\r?\n/)` composed with the trimming the sources apply right
after (a trailing `\r` is removed by `trim`), so splitting on `\n` alone
is equivalent. -/
def splitNL (s : Str) : List Str := s.splitOn '\n'

/-- `replace(/\s+/g, " ")`: a run of whitespace becomes one space (the
`prevSpace` flag marks being inside a run). -/
def collapseWSAux (prevSpace : Bool) : Str → Str
  | [] => []
  | c :: t =>
    if isSpaceCh c then
      (if prevSpace then collapseWSAux true t else ' ' :: collapseWSAux true t)
    else c :: collapseWSAux false t

/-- `replace(/\s+/g, " ")`. -/
def collapseWS (s : Str) : Str := collapseWSAux false s

/-- `String.prototype.includes`. -/
def containsSub (hay sub : Str) : Bool :=
  match hay with
  | [] => sub.isEmpty
  | _ :: t => sub.isPrefixOf hay || containsSub t sub

/-- `split(/\s+/)` on trimmed input (equivalently, with empty segments
dropped, which is what every call site does). -/
def splitWS (s : Str) : List Str := (s.splitOnP isSpaceCh).filter (· ≠ [])

/-- Numeric value of a digit string (`parseInt` on an all-digit string). -/
def natOfDigits (l : Str) : Nat := l.foldl (fun n c => n * 10 + (c.toNat - 48)) 0

/-- JavaScript `parseInt` in base 10: skip leading whitespace, optional
sign, then the longest digit run; `none` models `NaN`. -/
def jsParseInt (s : Str) : Option Int :=
  let t := s.dropWhile isSpaceCh
  let core : Str → Option Nat := fun u =>
    let ds := u.takeWhile isDigitCh
    if ds = [] then none else some (natOfDigits ds)
  match t with
  | '-' :: u => (core u).map (fun n => -(n : Int))
  | '+' :: u => (core u).map (fun n => (n : Int))
  | u => (core u).map (fun n => (n : Int))

/-- `join("\n")`. -/
def joinNL (l : List Str) : Str := (l.intersperse ['\n']).flatten

/-! ## A small regex engine (JavaScript semantics)

`runR` returns the list of `(end-position, captures)` pairs in JavaScript
preference order (greedy quantifiers, left alternative first); the head of
the list at the leftmost matching start position is the match JavaScript
reports.  `wb` is `\b`, `bos`/`eos` are `^`/`$` (no multiline flag is used
by the sources on multi-line inputs; they split lines first). -/

inductive Reg : Type where
  | eps : Reg
  | cls : (Char → Bool) → Reg
  | istr : Str → Reg
  | cat : Reg → Reg → Reg
  | alt : Reg → Reg → Reg
  | opt : Reg → Reg
  | star : Reg → Reg
  | grp : Nat → Reg → Reg
  | wb : Reg
  | bos : Reg
  | eos : Reg

/-- Captures: group number to captured text, most recent write first. -/
abbrev Caps := List (Nat × Str)

/-- Character of `s` at index `i`, if any. -/
def charAt (s : Str) (i : Nat) : Option Char := (s.drop i).head?

/-- Is the character at `i` a word character (out of range counts as no)? -/
def isWordAt (s : Str) (i : Nat) : Bool :=
  match charAt s i with
  | some c => isWordCh c
  | none => false

/-- JavaScript `\b`: word-ness differs on the two sides of position `i`. -/
def atBoundary (s : Str) (i : Nat) : Bool :=
  (decide (i ≠ 0) && isWordAt s (i - 1)) != isWordAt s i

/-- One layer of the backtracking matcher: structural recursion over the
pattern; a `star` runs one (character-consuming) iteration of its body
and then defers the rest of the star to `nextStar`, which the fuelled
wrapper `runR` ties back at one unit less fuel. -/
def runS (nextStar : Reg → Str → Nat → List (Nat × Caps)) : Reg → Str → Nat → List (Nat × Caps)
  | .eps, _, i => [(i, [])]
  | .cls p, s, i =>
    (match charAt s i with
     | some c => if p c then [(i + 1, [])] else []
     | none => [])
  | .istr l, s, i =>
    (let seg := (s.drop i).take l.length
     if seg.length = l.length && seg.map Char.toLower = l then [(i + l.length, [])] else [])
  | .cat a b, s, i =>
    (runS nextStar a s i).flatMap (fun p =>
      (runS nextStar b s p.1).map (fun q => (q.1, q.2 ++ p.2)))
  | .alt a b, s, i => runS nextStar a s i ++ runS nextStar b s i
  | .opt a, s, i => runS nextStar a s i ++ [(i, [])]
  | .star a, s, i =>
    ((runS nextStar a s i).filter (fun p => i < p.1)).flatMap (fun p =>
      (nextStar (.star a) s p.1).map (fun q => (q.1, q.2 ++ p.2))) ++ [(i, [])]
  | .grp n a, s, i =>
    (runS nextStar a s i).map (fun p => (p.1, (n, (s.drop i).take (p.1 - i)) :: p.2))
  | .wb, s, i => if atBoundary s i then [(i, [])] else []
  | .bos, _, i => if i = 0 then [(i, [])] else []
  | .eos, s, i => if i = s.length then [(i, [])] else []

/-- Backtracking matcher.  The fuel only bounds `star` unfolding; one unit
is consumed per (necessarily character-consuming) iteration, so
`s.length + 1` units always suffice and the out-of-fuel base (reachable
only past the end of the string) stops the star. -/
def runR : Nat → Reg → Str → Nat → List (Nat × Caps)
  | 0 => fun _ _ i => [(i, [])]
  | f + 1 => runS (runR f)

/-- Scan start positions left to right (fuelled with the string length);
the first position with a match gives the JavaScript `String.match` /
`RegExp.exec` result. -/
def jsSearchAux (r : Reg) (s : Str) : Nat → Nat → Option (Nat × Nat × Caps)
  | fuel, i =>
    match runR (s.length + 1) r s i with
    | p :: _ => some (i, p.1, p.2)
    | [] =>
      match fuel with
      | 0 => none
      | f + 1 => if i < s.length then jsSearchAux r s f (i + 1) else none

/-- First match of `r` in `s`: `(start, end, captures)`. -/
def jsSearch (r : Reg) (s : Str) : Option (Nat × Nat × Caps) :=
  jsSearchAux r s (s.length + 1) 0

/-- `RegExp.prototype.test`. -/
def rtest (r : Reg) (s : Str) : Bool := (jsSearch r s).isSome

/-- Captured text of group `n`. -/
def capOf (caps : Caps) (n : Nat) : Option Str := caps.lookup n

/-! Regex construction helpers. -/

/-- A single literal character (case sensitive). -/
def rch (c : Char) : Reg := .cls (fun x => x = c)

/-- A case-sensitive literal string. -/
def rstr (l : Str) : Reg := l.foldr (fun c r => .cat (rch c) r) .eps

/-- Alternation of a non-empty list, left to right. -/
def rAlts : List Reg → Reg
  | [] => .eps
  | [r] => r
  | r :: t => .alt r (rAlts t)

/-- `r+`. -/
def rplus (r : Reg) : Reg := .cat r (.star r)

/-- `\d`. -/
def rdig : Reg := .cls isDigitCh

/-- `\d{1,2}` (greedy). -/
def rd12 : Reg := .cat rdig (.opt rdig)

/-- `\d{n}`. -/
def rdN : Nat → Reg
  | 0 => .eps
  | n + 1 => .cat rdig (rdN n)

/-- `\s*`. -/
def rwsStar : Reg := .star (.cls isSpaceCh)

/-- `\s+`. -/
def rwsPlus : Reg := rplus (.cls isSpaceCh)

/-- Chain `cat` over a list. -/
def rseq : List Reg → Reg
  | [] => .eps
  | [r] => r
  | r :: t => .cat r (rseq t)

/-! ## Anchored date-shape patterns (structural matchers)

The sources test several simple anchored regexes over candidate ISO
strings.  These are embedded as direct structural matchers so proofs can
invert them. -/

/-- Consume exactly `n` digits. -/
def readDigits : Nat → Str → Option (Str × Str)
  | 0, s => some ([], s)
  | _ + 1, [] => none
  | n + 1, c :: t =>
    if isDigitCh c then (readDigits n t).map (fun p => (c :: p.1, p.2)) else none

/-- `^(\d{4})(?:-(\d{2})(?:-(\d{2}))?)?$` — the `isoLike` pattern of
`sanitizeDocumentDate` and the shape guard it re-tests right after
(the same language, captures aside). -/
def isoSplit (s : Str) : Option (Str × Option (Str × Option Str)) :=
  match readDigits 4 s with
  | none => none
  | some (y, r) =>
    match r with
    | [] => some (y, none)
    | c :: r1 =>
      if c = '-' then
        match readDigits 2 r1 with
        | none => none
        | some (mo, r2) =>
          match r2 with
          | [] => some (y, some (mo, none))
          | c2 :: r3 =>
            if c2 = '-' then
              match readDigits 2 r3 with
              | none => none
              | some (d, r4) => if r4 = [] then some (y, some (mo, some d)) else none
            else none
      else none

/-- `^\d{4}$`. -/
def yShape (s : Str) : Bool :=
  match readDigits 4 s with
  | some (_, r) => r = []
  | none => false

/-- `^\d{4}-\d{2}$`. -/
def ymShape (s : Str) : Bool :=
  match readDigits 4 s with
  | some (_, c :: r1) =>
    c = '-' &&
      (match readDigits 2 r1 with
       | some (_, r2) => r2 = []
       | none => false)
  | _ => false

/-- `^\d{4}-\d{2}-\d{2}$` — the `hasDay` test of `sanitizeDocumentDate`. -/
def dayShape (s : Str) : Bool :=
  match readDigits 4 s with
  | some (_, c :: r1) =>
    c = '-' &&
      (match readDigits 2 r1 with
       | some (_, c2 :: r2) =>
         c2 = '-' &&
           (match readDigits 2 r2 with
            | some (_, r3) => r3 = []
            | none => false)
       | _ => false)
  | _ => false

/-- The pattern `^(\d{4}-\d{2})-` that `sanitizeDocumentDate` matches on
`iso` to keep the year-month when a day is dropped. -/
def ymHead (s : Str) : Option Str :=
  match readDigits 4 s with
  | some (y, c :: r1) =>
    if c = '-' then
      match readDigits 2 r1 with
      | some (mo, c2 :: _) => if c2 = '-' then some (y ++ '-' :: mo) else none
      | _ => none
    else none
  | _ => none

/-! ## Calendar arithmetic (`new Date(y, m - 1, d)` validity checks)

JavaScript's `Date` maps constructor years 0–99 to 1900–1999; both
validity checks below inherit that quirk, so it is modelled explicitly. -/

/-- Proleptic Gregorian leap year. -/
def isLeap (y : Nat) : Bool := (y % 4 = 0 && y % 100 ≠ 0) || y % 400 = 0

/-- Days in month `m` (1–12) of year `y`. -/
def daysInMonth (y m : Nat) : Nat :=
  if m = 2 then (if isLeap y then 29 else 28)
  else if m = 4 || m = 6 || m = 9 || m = 11 then 30
  else 31

/-- The year `new Date(y, ...)` actually uses. -/
def jsDateYear (y : Nat) : Nat := if y ≤ 99 then 1900 + y else y

/-- `ensemble.ts` `isValidISO`: shape check plus round-trip through
`new Date(year, month - 1, day)` for day-precision values. -/
def isValidISO (iso : Str) : Bool :=
  match isoSplit iso with
  | some (_, none) => true
  | some (y, some (mo, dOpt)) =>
    let year := natOfDigits y
    let month := natOfDigits mo
    if month < 1 || month > 12 then false
    else
      match dOpt with
      | none => true
      | some d =>
        let day := natOfDigits d
        if day < 1 || day > 31 then false
        else jsDateYear year = year && day ≤ daysInMonth year month
  | none => false

/-- `pdf.ts` `isValidYMD`: `new Date(y, m, 0).getDate()` is the number of
days in month `m` of the (quirk-adjusted) year. -/
def isValidYMD (y m d : Nat) : Bool :=
  if m < 1 || m > 12 then false
  else 1 ≤ d && d ≤ daysInMonth (jsDateYear y) m

/-! ## `utils.ts`: `toISODate`

`toISODate` first searches (unanchored, leftmost, greedy with
backtracking) for `(20\d{2}|19\d{2})[-\/.](\d{1,2})[-\/.](\d{1,2})`, then
falls back to a bare `(20\d{2}|19\d{2})` year, normalised to `YYYY-01-01`.
The matcher below returns the captured characters directly, so the 1–2
digit groups are 1–2 characters by construction (`padStart` then fills
them to two). -/

/-- Separator class `[-\/.]`. -/
def isSepCh (c : Char) : Bool := c = '-' || c = '/' || c = '.'

/-- `padStart(2, "0")` on a 1–2 digit capture. -/
def pad2 : Char × Option Char → Str
  | (c, none) => ['0', c]
  | (c, some c2) => [c, c2]

/-- Match `(20\d{2}|19\d{2})` at the current position. -/
def yearHead : Str → Option ((Char × Char × Char × Char) × Str)
  | c1 :: c2 :: c3 :: c4 :: r =>
    if ((c1 = '2' && c2 = '0') || (c1 = '1' && c2 = '9')) && isDigitCh c3 && isDigitCh c4
    then some ((c1, c2, c3, c4), r) else none
  | _ => none

/-- Match the trailing `(\d{1,2})` (greedy, nothing follows it). -/
def dayTail : Str → Option (Char × Option Char)
  | d1 :: r =>
    if isDigitCh d1 then
      (match r with
       | d2 :: _ => if isDigitCh d2 then some (d1, some d2) else some (d1, none)
       | [] => some (d1, none))
    else none
  | [] => none

/-- The two-digit-month attempt of `moSepDay` (digit, digit, then a
separator must follow). -/
def moTwo (m1 : Char) (r2 : Str) : Option ((Char × Option Char) × (Char × Option Char)) :=
  match r2 with
  | m2 :: s2 :: r3 =>
    if isDigitCh m2 && isSepCh s2 then (dayTail r3).map (fun d => ((m1, some m2), d))
    else none
  | _ => none

/-- Match `(\d{1,2})[-\/.](\d{1,2})` with JavaScript's greedy-then-backtrack
choice for the first group (`moTwo` is the two-digit attempt). -/
def moSepDay : Str → Option ((Char × Option Char) × (Char × Option Char))
  | m1 :: r2 =>
    if isDigitCh m1 then
      match moTwo m1 r2 with
      | some v => some v
      | none =>
        match r2 with
        | s2 :: r3 => if isSepCh s2 then (dayTail r3).map (fun d => ((m1, none), d)) else none
        | [] => none
    else none
  | [] => none

/-- The full first pattern of `toISODate`, anchored at the current position. -/
def ymdAt (s : Str) : Option ((Char × Char × Char × Char) × (Char × Option Char) × (Char × Option Char)) :=
  match yearHead s with
  | some (yc, s1 :: r1) => if isSepCh s1 then (moSepDay r1).map (fun p => (yc, p.1, p.2)) else none
  | _ => none

/-- Leftmost match of the first pattern of `toISODate`. -/
def findYMD : Str → Option ((Char × Char × Char × Char) × (Char × Option Char) × (Char × Option Char))
  | [] => none
  | s@(_ :: t) =>
    match ymdAt s with
    | some v => some v
    | none => findYMD t

/-- Leftmost match of `(20\d{2}|19\d{2})` (no word boundaries in this one). -/
def findYear : Str → Option (Char × Char × Char × Char)
  | [] => none
  | s@(_ :: t) =>
    match yearHead s with
    | some (yc, _) => some yc
    | none => findYear t

/-- `utils.ts` `toISODate` (the year capture is already four characters,
so its `padStart(4, "0")` is the identity). -/
def toISODate (s : Option Str) : Option Str :=
  match s with
  | none => none
  | some str =>
    if str = [] then none
    else
      match findYMD str with
      | some ((c1, c2, c3, c4), mo, d) =>
        some ([c1, c2, c3, c4] ++ ('-' :: pad2 mo) ++ ('-' :: pad2 d))
      | none =>
        match findYear str with
        | some (c1, c2, c3, c4) => some ([c1, c2, c3, c4] ++ ('-' :: '0' :: '1' :: '-' :: '0' :: '1' :: []))
        | none => none

/-! ## `ensemble.ts` -/

/-- String-literal helper. -/
def txt (s : String) : Str := s.toList

/-- The two text regions the fusion core reads (the remaining optional
`Sections` fields of `types.ts` are not consulted by the embedded code). -/
structure Sections where
  headerText : Option Str
  body : Option Str
deriving Repr, DecidableEq

/-- `x || ""` on an optional string (an empty string maps to itself). -/
def jsOrEmpty (o : Option Str) : Str := o.getD []

/-- Header plus body, lowercased, as `preprintSignals` and
`hasPostedDateEvidence` build it. -/
def headerBodyLower (s : Sections) : Str :=
  lowerStr (jsOrEmpty s.headerText ++ '\n' :: jsOrEmpty s.body)

/-- The `arxiv` cue, shared between `preprintSignals` and
`guessDocumentType`. -/
def arxivPat : Reg :=
  .alt (rseq [.wb, rstr (txt "arxiv"), .wb]) (rstr (txt "arxiv.org/abs/"))

/-- The ten preprint cue patterns, in source order (they are applied to
lowercased text, so case-sensitive lowercase literals are faithful). -/
def preprintCues : List Reg :=
  [ rseq [.wb, rstr (txt "preprint"), .wb],
    rstr (txt "has not been peer reviewed"),
    rseq [.wb, rstr (txt "ssrn"), .wb],
    rseq [rstr (txt "social"), rwsPlus, rstr (txt "science"), rwsPlus,
          rstr (txt "research"), rwsPlus, rstr (txt "network")],
    arxivPat,
    rseq [.wb, rstr (txt "medrxiv"), .wb],
    rseq [.wb, rstr (txt "biorxiv"), .wb],
    rseq [.wb, rstr (txt "research"), rwsStar, rstr (txt "square"), .wb],
    rseq [rstr (txt "electronic copy available at:"), rwsStar, rstr (txt "ssrn.com")],
    rAlts [rstr (txt "this version posted"), rstr (txt "first posted"),
           rseq [rstr (txt "posted:"), rwsStar, rplus (.cls isWordCh), rwsPlus,
                 rd12, rch ',', rwsPlus, rdN 4]] ]

/-- `preprintSignals`: number of cue patterns matching header+body. -/
def preprintSignals (s : Sections) : Nat :=
  preprintCues.countP (fun r => rtest r (headerBodyLower s))

/-- `strongPreprintHeuristic`. -/
def strongPreprintHeuristic (s : Sections) : Option Str :=
  if preprintSignals s ≥ 2 then some (txt "Preprint") else none

/-- `normalizeDocType` (a null or empty string is falsy and returns null). -/
def normalizeDocType (s : Option Str) : Option Str :=
  match s with
  | none => none
  | some v =>
    if v = [] then none
    else
      let t := lowerStr v
      if containsSub t (txt "preprint") then some (txt "Preprint")
      else if containsSub t (txt "conference") || containsSub t (txt "proceedings") ||
              containsSub t (txt "abstract") then some (txt "Conference Paper")
      else if containsSub t (txt "journal") then some (txt "Journal Article")
      else if containsSub t (txt "thesis") || containsSub t (txt "dissertation") then
        some (txt "Thesis")
      else some (jsTrim v)

/-- `ORG_WORDS` (affiliation/organisation cue words). -/
def ORG_WORDS : List Str :=
  [ txt "university", txt "univ", txt "institute", txt "department", txt "dept",
    txt "school", txt "college", txt "laboratory", txt "centre", txt "center",
    txt "hospital", txt "clinic", txt "commission", txt "authority", txt "ministry",
    txt "agency", txt "federal", txt "court", txt "board", txt "foundation",
    txt "trust", txt "unit", txt "division", txt "bureau", txt "office",
    txt "medicine", txt "medical", txt "health", txt "healthcare", txt "science",
    txt "sciences", txt "research", txt "perinatal", txt "neonatal", txt "pediatrics",
    txt "pediatric", txt "childrens", txt "children's", txt "london", txt "ontario",
    txt "canada", txt "united", txt "kingdom", txt "usa" ]

/-- `DOC_LABELS` (non-author header labels). -/
def DOC_LABELS : List Str :=
  [ txt "original article", txt "research article", txt "review article",
    txt "systematic review", txt "meta-analysis", txt "meta analysis",
    txt "brief report", txt "short report", txt "short communication",
    txt "case report", txt "editorial", txt "commentary", txt "perspective",
    txt "viewpoint", txt "protocol", txt "special article", txt "open access",
    txt "letter to the editor", txt "technical note", txt "methods article",
    txt "article info", txt "article information", txt "article history",
    txt "how to cite", txt "correspondence" ]

/-- `isDocLabelLine`. -/
def isDocLabelLine (s : Str) : Bool :=
  let x := collapseWS (lowerStr s)
  DOC_LABELS.any (fun p => containsSub x p)

/-- `hasOrgCue`: a `\b word \b` test per organisation word. -/
def hasOrgCue (s : Str) : Bool :=
  let x := lowerStr s
  ORG_WORDS.any (fun w => rtest (rseq [.wb, rstr w, .wb]) x)

/-- The anchored replace `^\s*by\s+` → `""` (case-insensitive). -/
def stripLeadingBy (s : Str) : Str :=
  let rest := s.dropWhile isSpaceCh
  match rest with
  | b :: y :: r =>
    if b.toLower = 'b' && y.toLower = 'y' then
      (match r with
       | c :: _ => if isSpaceCh c then r.dropWhile isSpaceCh else s
       | [] => s)
    else s
  | _ => s

/-- Uppercase ASCII letter. -/
def isUpperCh (c : Char) : Bool := 'A' ≤ c && c ≤ 'Z'

/-- Lowercase ASCII letter. -/
def isLowerCh (c : Char) : Bool := 'a' ≤ c && c ≤ 'z'

/-- Character class `[a-z'’-]` of the first person-name token pattern. -/
def isNamePartCh (c : Char) : Bool :=
  isLowerCh c || c = '\'' || c = '’' || c = '-'

/-- The three person-name token patterns of `isLikelyPersonName`. -/
def tokenOK (tok : Str) : Bool :=
  rtest (rseq [.bos, .cls isUpperCh, rplus (.cls isNamePartCh), .eos]) tok ||
  rtest (rseq [.bos, .cls isUpperCh, rch '.', .eos]) tok ||
  rtest (rseq [.bos, .cls isUpperCh, rplus (.cls isLowerCh), rch '-',
               .cls isUpperCh, rplus (.cls isLowerCh), .eos]) tok

/-- `isLikelyPersonName`. -/
def isLikelyPersonName (s : Str) : Bool :=
  let name := jsTrim (stripLeadingBy s)
  if isDocLabelLine name || hasOrgCue name then false
  else
    let tokens := splitWS name
    if tokens.length < 2 || tokens.length > 5 then false
    else tokens.countP tokenOK ≥ max 2 (tokens.length - 1)

/-- Global delete-replace of a regex (matches are found left to right and
removed; every pattern used this way consumes at least one character). -/
def gsubDelAux (fuel : Nat) (r : Reg) (s : Str) : Str :=
  match fuel with
  | 0 => s
  | f + 1 =>
    match jsSearch r s with
    | none => s
    | some (a, b, _) => s.take a ++ gsubDelAux f r (s.drop (max b (a + 1)))

/-- Entry point for global delete-replace. -/
def gsubDel (r : Reg) (s : Str) : Str := gsubDelAux (s.length + 1) r s

/-- The degree-stripping pattern
`\s*,\s*(PhD|MSc|BSc|MD|MPH|MBA|Ph\.?D\.?)\b` (case-insensitive, global). -/
def degreePat : Reg :=
  rseq [rwsStar, rch ',', rwsStar,
        .grp 1 (rAlts [.istr (txt "phd"), .istr (txt "msc"), .istr (txt "bsc"),
                       .istr (txt "md"), .istr (txt "mph"), .istr (txt "mba"),
                       rseq [.istr (txt "ph"), .opt (rch '.'), .istr (txt "d"), .opt (rch '.')]]),
        .wb]

/-- Case-insensitive deduplication preserving first-seen order. -/
def dedupeCI (seen : List Str) : List Str → List Str
  | [] => []
  | n :: t =>
    let k := lowerStr n
    if seen.contains k then dedupeCI seen t else n :: dedupeCI (k :: seen) t

/-- The array-processing body of `ensemble.ts` `cleanAuthors` (the
`typeof s === "string" ? s : ""` step is the identity here because the
claims range over string entries). -/
def cleanAuthorsArr (a : List Str) : Option (List Str) :=
  let normalized := ((a.map (fun s =>
      jsTrim (collapseWS (stripLeadingBy (gsubDel degreePat s))))).filter
        (fun s => s.length ≥ 3)).filter
        (fun s => !isDocLabelLine s && isLikelyPersonName s)
  let out := dedupeCI [] normalized
  if out = [] then none else some (out.take 24)

/-- A language-model `authors` value: the well-typed array case or the
malformed joined-string case the specification discusses. -/
inductive AuthorsVal : Type where
  | arr : List Str → AuthorsVal
  | strv : Str → AuthorsVal
deriving Repr, DecidableEq

/-- `ensemble.ts` `cleanAuthors` on an arbitrary `authors` value:
`!a || !a.length` returns null for null/undefined, the empty string and
the empty array; a non-empty string then hits `a.map`, which is not a
function on strings — a `TypeError`. -/
def cleanAuthors : Option AuthorsVal → Except String (Option (List Str))
  | none => .ok none
  | some (.strv s) =>
    if s = [] then .ok none else .error "TypeError: a.map is not a function"
  | some (.arr l) => if l = [] then .ok none else .ok (cleanAuthorsArr l)

/-- Arbitration unit `Field<T>` of `types.ts` (named `FieldV` because Lean
already has a `Field` class): `{ value, confidence, provenance }`. -/
structure FieldV (T : Type) where
  value : Option T
  confidence : ℚ
  provenance : String
deriving Repr, DecidableEq

/-- `qualityTextField` (note `txt ? txt.length : 0` and `txt || null`
coincide with the plain length/value when `txt` is the empty string). -/
def qualityTextField (v : Option Str) (prov : String) : FieldV Str :=
  let t : Option Str :=
    match v with
    | some s => if s = [] then none else some (jsTrim (collapseWS s))
    | none => none
  let hasLetters := match t with
    | some u => rtest (.cls isLetterCh) u
    | none => false
  let len := match t with
    | some u => u.length
    | none => 0
  let conf : ℚ := if hasLetters && decide (len ≥ 30) then 85/100 else 1/2
  let conf : ℚ := if len > 1200 then max conf (9/10) else conf
  let capped : Option Str :=
    match t with
    | some u => if u.length > 1200 then some (u.take 1200) else (if u = [] then none else some u)
    | none => none
  { value := capped, confidence := conf, provenance := prov }

/-- `guessDocumentType` (every branch returns a string). -/
def guessDocumentType (s : Sections) : Option Str :=
  let t := lowerStr (jsOrEmpty s.headerText)
  if preprintSignals s ≥ 2 then some (txt "Preprint")
  else if rtest arxivPat t then some (txt "Preprint")
  else if rtest (rAlts [rstr (txt "proceedings of"),
                        rseq [rstr (txt "in:"), .cls isSpaceCh],
                        rseq [rstr (txt "acm"), .wb], rseq [rstr (txt "ieee"), .wb],
                        rseq [rstr (txt "springer"), .wb], rseq [rstr (txt "aaai"), .wb],
                        rseq [rstr (txt "neurips"), .wb], rseq [rstr (txt "icml"), .wb],
                        rseq [rstr (txt "iclr"), .wb]]) t then some (txt "Conference Paper")
  else if rtest (rstr (txt "doi:10.")) t &&
          rtest (rAlts [rstr (txt "vol."), rstr (txt "issue"), rstr (txt "journal"),
                        rstr (txt "nature"), rstr (txt "science"), rstr (txt "elsevier"),
                        rstr (txt "wiley"), rstr (txt "springer")]) t then
    some (txt "Journal Article")
  else if rtest (.alt (rstr (txt "thesis")) (rstr (txt "dissertation"))) t then
    some (txt "Thesis")
  else some (txt "Journal/Conference Article")

/-- The month alternation of `hasPostedDateEvidence` (lowercase input). -/
def monthCore : Reg :=
  rAlts [ .cat (.istr (txt "jan")) (.opt (.istr (txt "uary"))),
          .cat (.istr (txt "feb")) (.opt (.istr (txt "ruary"))),
          .cat (.istr (txt "mar")) (.opt (.istr (txt "ch"))),
          .cat (.istr (txt "apr")) (.opt (.istr (txt "il"))),
          .istr (txt "may"),
          .cat (.istr (txt "jun")) (.opt (.istr (txt "e"))),
          .cat (.istr (txt "jul")) (.opt (.istr (txt "y"))),
          .cat (.istr (txt "aug")) (.opt (.istr (txt "ust"))),
          .cat (.istr (txt "sep")) (.opt (.alt (.istr (txt "t")) (.istr (txt "tember")))),
          .cat (.istr (txt "oct")) (.opt (.istr (txt "ober"))),
          .cat (.istr (txt "nov")) (.opt (.istr (txt "ember"))),
          .cat (.istr (txt "dec")) (.opt (.istr (txt "ember"))) ]

/-- The cue-verb alternation of `hasPostedDateEvidence`, in source order. -/
def evidenceVerb : Reg :=
  rAlts [ .istr (txt "posted"),
          rseq [.istr (txt "this"), rwsPlus, .istr (txt "version"), rwsPlus, .istr (txt "posted")],
          .cat (.istr (txt "published")) (.opt (rseq [rwsPlus, .istr (txt "online")])),
          .istr (txt "accepted"),
          .istr (txt "received"),
          rseq [.istr (txt "available"), rwsPlus, .istr (txt "online")],
          rseq [.istr (txt "first"), rwsPlus, .istr (txt "published")],
          .cat (.istr (txt "epub"))
               (.opt (rseq [rwsPlus, .istr (txt "ahead"), rwsPlus, .istr (txt "of"),
                            rwsPlus, .istr (txt "print")])) ]

/-- The full evidence pattern: cue verb, optional colon/dash, then an
MDY, DMY or ISO date shape. -/
def evidencePat : Reg :=
  rseq [ evidenceVerb, rwsStar,
         .opt (.cls (fun c => c = ':' || c = '-' || c = '–')), rwsStar,
         rAlts [ rseq [monthCore, rwsPlus, rd12, rch ',', rwsStar, rdN 4],
                 rseq [rd12, rwsPlus, monthCore, rwsPlus, rdN 4],
                 rseq [rdN 4, rch '-', rdN 2, rch '-', rdN 2] ] ]

/-- `hasPostedDateEvidence`. -/
def hasPostedDateEvidence (s : Sections) : Bool :=
  rtest evidencePat (headerBodyLower s)

/-- The `iso` normalisation step of `sanitizeDocumentDate`:
`isoLike.test(dateStr) ? dateStr : toISODate(dateStr)`. -/
def normalizeIso (ds : Str) : Option Str :=
  if (isoSplit ds).isSome then some ds else toISODate (some ds)

/-- `sanitizeDocumentDate`.  `now` is `new Date().getFullYear()`; the
`parseInt(iso.slice(0, 4))` is `natOfDigits` of the first four characters,
which the preceding shape test guarantees to be digits. -/
def sanitizeDocumentDate (now : Nat) (dateStr : Option Str) (sections : Sections)
    (forceAcceptDayFromHeader : Bool) : Option Str :=
  match dateStr with
  | none => none
  | some ds =>
    if ds = [] then none
    else
      match normalizeIso ds with
      | none => none
      | some iso =>
        if (isoSplit iso).isNone then none
        else
          let y := natOfDigits (iso.take 4)
          if y < 1900 || y > now + 1 then none
          else
            if dayShape iso && !hasPostedDateEvidence sections && !forceAcceptDayFromHeader then
              match ymHead iso with
              | some ym => some ym
              | none => some ((Nat.repr y).toList)
            else if isValidISO iso then some iso else none

/-- `chooseField` on a non-empty candidate list (the sources always pass
literal two-element arrays; `c.confidence || 0` is the identity on the
rational model).  The final `{ ...best, provenance: best.provenance }`
is `best` itself. -/
def chooseField {T : Type} (c0 : FieldV T) (rest : List (FieldV T))
    (fitness : Option T → ℚ) : FieldV T :=
  rest.foldl (fun best c =>
    if fitness c.value > fitness best.value ∨
       (fitness c.value = fitness best.value ∧ c.confidence > best.confidence)
    then c else best) c0

/-! ## `fuseCandidates` -/

/-- JavaScript truthiness of a nullable string. -/
def truthyStr (a : Option Str) : Bool :=
  match a with
  | some s => !s.isEmpty
  | none => false

/-- `x || y` on nullable strings (empty strings are falsy). -/
def jsOrS (a b : Option Str) : Option Str :=
  if truthyStr a then a else if truthyStr b then b else none

/-- `x || y` on a nullable array (an array, even empty, is truthy). -/
def jsOrA (a b : Option (List Str)) : Option (List Str) :=
  match a with
  | some l => some l
  | none => b

/-- `x || "heuristic"` on the optional parser method string. -/
def jsOrProv (a : Option String) (b : String) : String :=
  match a with
  | some s => if s = "" then b else s
  | none => b

/-- The fields of `Partial<Metadata>` that `fuseCandidates` reads. -/
structure MetaPartial where
  authors : Option (List Str)
  document_date : Option Str
deriving Repr, DecidableEq

/-- Parser candidate record. -/
structure Candidates where
  authors : Option (List Str)
  document_date : Option Str
deriving Repr, DecidableEq

/-- The optional `meta` flags of `ParsedDoc`. -/
structure ParsedMeta where
  dateFromHeader : Option Bool
deriving Repr, DecidableEq

/-- The fields of `ParsedDoc` that `fuseCandidates` reads (its `ok` and
`sections` fields are not consulted). -/
structure ParsedDoc where
  method : String
  candidates : Candidates
  meta : Option ParsedMeta
deriving Repr, DecidableEq

/-- A language-model result object; the surrounding `llm` argument is
`Option LLMVal`, with `none` standing for `null`/`undefined`. -/
structure LLMVal where
  document_type : Option Str
  authors : Option AuthorsVal
  document_date : Option Str
  summary : Option Str
  methods_summary : Option Str
  findings_summary : Option Str
deriving Repr, DecidableEq

/-- The fused output record. -/
structure FusedMetadata where
  document_type : FieldV Str
  authors : FieldV (List Str)
  document_date : FieldV Str
  summary : FieldV Str
  methods_summary : FieldV Str
  findings_summary : FieldV Str
deriving Repr, DecidableEq

/-- The date fitness function passed to `chooseField` in `fuseCandidates`
(day 1, month 0.8, year 0.6, other non-empty 0.4, falsy 0). -/
def dateFitness (v : Option Str) : ℚ :=
  match v with
  | none => 0
  | some s =>
    if s.isEmpty then 0
    else if dayShape s then 1
    else if ymShape s then 8/10
    else if yShape s then 6/10
    else 4/10

/-- The document-type field as `fuseCandidates` computes it: the generic
chooser over the LLM and heuristic candidates, then the strong-preprint
override. -/
def fusedDocType (parser : Option ParsedDoc) (o : LLMVal) (sections : Sections) : FieldV Str :=
  let heuristicType := guessDocumentType sections
  let parserProv := jsOrProv (parser.map (fun p => p.method)) "heuristic"
  let docType0 :=
    chooseField ⟨normalizeDocType o.document_type, 7/10, "llm"⟩
      [⟨heuristicType, 6/10, parserProv⟩]
      (fun v => if truthyStr v then 1 else 0)
  let strongPreprint := strongPreprintHeuristic sections
  if strongPreprint.isSome && decide (docType0.value ≠ some (txt "Preprint")) then
    { docType0 with value := some (txt "Preprint"),
                    confidence := max docType0.confidence (9/10),
                    provenance := "heuristic" }
  else docType0

/-- The pure tail of `fuseCandidates`, once the language-model object is
known to be non-null and the two `cleanAuthors` runs have succeeded (both
of those are the only fallible steps; the remaining lets of the source
are reproduced here). -/
def fuseAssemble (now : Nat) (base : MetaPartial) (parser : Option ParsedDoc)
    (o : LLMVal) (sections : Sections)
    (authorsParsed authorsLLM : Option (List Str)) : FusedMetadata :=
  let parserProv := jsOrProv (parser.map (fun p => p.method)) "heuristic"
  let docType := fusedDocType parser o sections
  let authors :=
    chooseField ⟨authorsParsed, if authorsParsed.isSome then 96/100 else 2/10, parserProv⟩
      [⟨authorsLLM, if authorsLLM.isSome then 72/100 else 3/10, "llm"⟩]
      (fun v => match v with
        | some l => if l.isEmpty then 0 else 1
        | none => 0)
  let dateParsedRaw := jsOrS (parser.bind (fun p => p.candidates.document_date)) base.document_date
  let dateLLMRaw := o.document_date
  let cameFromHeader := decide ((parser.bind (fun p => p.meta)).bind (fun m => m.dateFromHeader) = some true)
  let dateParsed := sanitizeDocumentDate now dateParsedRaw sections cameFromHeader
  let dateLLM := sanitizeDocumentDate now dateLLMRaw sections false
  let datePicked :=
    chooseField ⟨dateParsed, if truthyStr dateParsed then 92/100 else 2/10, parserProv⟩
      [⟨dateLLM, if truthyStr dateLLM then 7/10 else 3/10, "llm"⟩]
      dateFitness
  let finalSanitized := sanitizeDocumentDate now datePicked.value sections cameFromHeader
  let datePicked2 :=
    { datePicked with value := finalSanitized,
                      confidence := if truthyStr finalSanitized then datePicked.confidence else 2/10 }
  { document_type := docType,
    authors := authors,
    document_date := datePicked2,
    summary := qualityTextField o.summary "llm",
    methods_summary := qualityTextField o.methods_summary "llm",
    findings_summary := qualityTextField o.findings_summary "llm" }

/-- `fuseCandidates`.  JavaScript exceptions are modelled by
`Except String`: reading `llm.document_type` off a `null`/`undefined`
language-model value throws, as does `cleanAuthors` on a non-empty
string `authors` field; everything else is total and collected in
`fuseAssemble`. -/
def fuseCandidates (now : Nat) (base : MetaPartial) (parser : Option ParsedDoc)
    (llm : Option LLMVal) (sections : Sections) : Except String FusedMetadata :=
  match llm with
  | none => Except.error "TypeError: cannot read properties of null"
  | some o =>
    match cleanAuthors ((jsOrA (parser.bind (fun p => p.candidates.authors))
        base.authors).map AuthorsVal.arr) with
    | Except.error e => Except.error e
    | Except.ok authorsParsed =>
      match cleanAuthors o.authors with
      | Except.error e => Except.error e
      | Except.ok authorsLLM =>
        Except.ok (fuseAssemble now base parser o sections authorsParsed authorsLLM)

/-! ## `parsers/pdf.ts`: date ranking -/

/-- Decimal rendering of a number (template `${Y}`). -/
def natToStr (n : Nat) : Str := (Nat.repr n).toList

/-- `String(n).padStart(2, "0")`. -/
def natPad2 (n : Nat) : Str := if n < 10 then '0' :: natToStr n else natToStr n

/-- The `monthToMM` table: full month names plus the single abbreviation
`sept` (all other abbreviations miss and make `toISO` fall back to the
bare year). -/
def monthMap : List (Str × Str) :=
  [ (txt "january", txt "01"), (txt "february", txt "02"), (txt "march", txt "03"),
    (txt "april", txt "04"), (txt "may", txt "05"), (txt "june", txt "06"),
    (txt "july", txt "07"), (txt "august", txt "08"), (txt "september", txt "09"),
    (txt "sept", txt "09"), (txt "october", txt "10"), (txt "november", txt "11"),
    (txt "december", txt "12") ]

/-- `monthToMM`. -/
def monthToMM (m : Str) : Option Str := monthMap.lookup (lowerStr m)

/-- `pdf.ts` `toISO` (`now` is the current year; `nextYear = now + 1`).
A `NaN` year (`jsParseInt` returning `none`) fails `Number.isFinite`. -/
def toISO (now : Nat) (y : Str) (m d : Option Str) : Option Str :=
  match jsParseInt y with
  | none => none
  | some Y =>
    if Y < 1900 || Y > (now : Int) + 1 then none
    else
      let yS := natToStr Y.toNat
      match m with
      | none => some yS
      | some m =>
        if m = [] then some yS
        else
          match monthToMM m with
          | none => some yS
          | some mm =>
            match d with
            | none => some (yS ++ '-' :: mm)
            | some d =>
              if d = [] then some (yS ++ '-' :: mm)
              else
                match jsParseInt d with
                | none => none
                | some dn =>
                  let dd := natPad2 dn.toNat
                  if isValidYMD Y.toNat (natOfDigits mm) (natOfDigits dd) then
                    some (yS ++ '-' :: mm ++ '-' :: dd)
                  else none

/-- First element of a list for which `f` succeeds (backtracking order). -/
def firstSome {α β : Type} (f : α → Option β) : List α → Option β
  | [] => none
  | x :: t =>
    match f x with
    | some v => some v
    | none => firstSome f t

/-- `\d{1,2}` as a greedy-then-backtrack choice list of `(value, rest)`. -/
def digits2or1 : Str → List (Nat × Str)
  | a :: b :: r =>
    if isDigitCh a then
      (if isDigitCh b then [(natOfDigits [a, b], r), (natOfDigits [a], b :: r)]
       else [(natOfDigits [a], b :: r)])
    else []
  | [a] => if isDigitCh a then [(natOfDigits [a], [])] else []
  | [] => []

/-- Does a word boundary hold after the match (next char non-word or end)? -/
def nonWordNext : Str → Bool
  | [] => true
  | c :: _ => !isWordCh c

/-- `\b(20\d{2}|19\d{2})[-\/.](\d{1,2})[-\/.](\d{1,2})\b` anchored at the
current position (the leading `\b` is checked by the scanner). -/
def numPat1At (s : Str) : Option (Nat × Nat × Nat) :=
  match yearHead s with
  | some ((c1, c2, c3, c4), s1 :: r1) =>
    if isSepCh s1 then
      firstSome (fun (p : Nat × Str) =>
        match p.2 with
        | s2 :: r3 =>
          if isSepCh s2 then
            firstSome (fun (q : Nat × Str) =>
              if nonWordNext q.2 then some (natOfDigits [c1, c2, c3, c4], p.1, q.1) else none)
              (digits2or1 r3)
          else none
        | [] => none) (digits2or1 r1)
    else none
  | _ => none

/-- `\b(\d{1,2})[-\/.](\d{1,2})[-\/.](20\d{2}|19\d{2})\b` anchored. -/
def numPat2At (s : Str) : Option (Nat × Nat × Nat) :=
  firstSome (fun (p : Nat × Str) =>
    match p.2 with
    | s1 :: r2 =>
      if isSepCh s1 then
        firstSome (fun (q : Nat × Str) =>
          match q.2 with
          | s2 :: r4 =>
            if isSepCh s2 then
              (match yearHead r4 with
               | some ((c1, c2, c3, c4), r5) =>
                 if nonWordNext r5 then some (p.1, q.1, natOfDigits [c1, c2, c3, c4]) else none
               | none => none)
            else none
          | [] => none) (digits2or1 r2)
      else none
    | [] => none) (digits2or1 s)

/-- `\b(20\d{2}|19\d{2})[-\/.](\d{1,2})\b` anchored. -/
def numPat3At (s : Str) : Option (Nat × Nat) :=
  match yearHead s with
  | some ((c1, c2, c3, c4), s1 :: r1) =>
    if isSepCh s1 then
      firstSome (fun (p : Nat × Str) =>
        if nonWordNext p.2 then some (natOfDigits [c1, c2, c3, c4], p.1) else none)
        (digits2or1 r1)
    else none
  | _ => none

/-- `\b(20\d{2}|19\d{2})\b` anchored. -/
def numPat4At (s : Str) : Option Str :=
  match yearHead s with
  | some ((c1, c2, c3, c4), r) =>
    if nonWordNext r then some [c1, c2, c3, c4] else none
  | none => none

/-- Leftmost-match scanner for the numeric patterns: every pattern starts
with a digit (a word character), so its leading `\b` holds exactly when
the previous character is absent or non-word. -/
def scanOk (prev : Option Char) : Bool :=
  match prev with
  | none => true
  | some c => !isWordCh c

/-- The scanner itself: try the pattern at every start position where its
leading word boundary holds, leftmost match first. -/
def scanNum {β : Type} (patAt : Str → Option β) : Option Char → Str → Option β
  | prev, s =>
    match (if scanOk prev then patAt s else none) with
    | some v => some v
    | none =>
      match s with
      | [] => none
      | c :: t => scanNum patAt (some c) t

/-- The three-way disambiguation of the `A[-\/.]B[-\/.]Year` shape in
`parseNumericDate`. -/
def numDisamb (Y a b : Nat) : Option Str :=
  if a > 12 && isValidYMD Y b a then
    some (natToStr Y ++ '-' :: natPad2 b ++ '-' :: natPad2 a)
  else if b > 12 && isValidYMD Y a b then
    some (natToStr Y ++ '-' :: natPad2 a ++ '-' :: natPad2 b)
  else if 1 ≤ a && a ≤ 12 then some (natToStr Y ++ '-' :: natPad2 a)
  else none

/-- `parseNumericDate`: ISO first, then day/month disambiguation, then
year-month, then bare year; a matched pattern whose guard fails falls
through to the next pattern (on the whole string, as in the source). -/
def parseNumericDate (s : Str) : Option Str :=
  let r1 : Option Str :=
    match scanNum numPat1At none s with
    | some (Y, M, D) =>
      if isValidYMD Y M D then some (natToStr Y ++ '-' :: natPad2 M ++ '-' :: natPad2 D)
      else none
    | none => none
  match r1 with
  | some v => some v
  | none =>
    let r2 : Option Str :=
      match scanNum numPat2At none s with
      | some (a, b, Y) => numDisamb Y a b
      | none => none
    match r2 with
    | some v => some v
    | none =>
      let r3 : Option Str :=
        match scanNum numPat3At none s with
        | some (Y, M) =>
          if 1 ≤ M && M ≤ 12 then some (natToStr Y ++ '-' :: natPad2 M) else none
        | none => none
      match r3 with
      | some v => some v
      | none => scanNum numPat4At none s

/-- `looksLikeRef` (capture-free transliteration of its six regexes). -/
def looksLikeRef (s : Str) : Bool :=
  rtest (rAlts [rseq [.wb, .istr (txt "doi:")], .istr (txt "vol."), .istr (txt "issue"),
                .istr (txt "pages"), .istr (txt "pp."),
                rseq [.istr (txt "no."), .wb]]) s ||
  rtest (rseq [.bos, rch '[', rplus rdig, rch ']']) s ||
  rtest (rseq [.bos, .cls isUpperCh, rplus (.cls isLowerCh), rch ',', rwsStar,
               .cls isUpperCh, rch '.']) s ||
  rtest (rseq [rch '(', rdN 4, rch ')']) s ||
  rtest (rseq [rdN 4, rch ';', rdig]) s ||
  rtest (rAlts [rseq [.wb, .istr (txt "keyword"), .opt (.istr (txt "s"))],
                .istr (txt "abstract"), .istr (txt "references"),
                rseq [.istr (txt "bibliography"), .wb]]) s

/-- The punctuation class `[\s,.:/\-–—]` of the tolerant date patterns. -/
def isPunctCh (c : Char) : Bool :=
  isSpaceCh c || c = ',' || c = '.' || c = ':' || c = '/' || c = '-' || c = '–' || c = '—'

/-- Optional ordinal suffix `(?:st|nd|rd|th)?`. -/
def ordOpt : Reg :=
  .opt (rAlts [.istr (txt "st"), .istr (txt "nd"), .istr (txt "rd"), .istr (txt "th")])

/-- `findRankedDate`'s `reMDY`.  The interpolated `MONTH` constant carries
its own parentheses, so the template's extra parentheses produce a nested
group: group 1 and group 2 both capture the month, group 3 the day and
group 4 the year — exactly the numbering the call sites index into. -/
def reMDY : Reg :=
  rseq [.wb, .grp 1 (.grp 2 monthCore), .opt (rch '.'), .star (.cls isPunctCh),
        .grp 3 rd12, ordOpt, .star (.cls isPunctCh), .grp 4 (rdN 4), .wb]

/-- `findRankedDate`'s `reDMY` (group 1 day, groups 2/3 month, group 4 year). -/
def reDMY : Reg :=
  rseq [.wb, .grp 1 rd12, ordOpt, .star (.cls isPunctCh),
        .grp 2 (.grp 3 monthCore), .opt (rch '.'), .star (.cls isPunctCh),
        .grp 4 (rdN 4), .wb]

/-- `findRankedDate`'s `reMY` (groups 1/2 month, group 3 year). -/
def reMY : Reg :=
  rseq [.wb, .grp 1 (.grp 2 monthCore), .opt (rch '.'), .star (.cls isPunctCh),
        .grp 3 (rdN 4), .wb]

/-- The cue-verb regex of `findRankedDate`, alternatives in source order. -/
def cueRe : Reg :=
  rseq [.wb,
        .grp 1 (rAlts [rseq [.istr (txt "this"), rwsPlus, .istr (txt "version"), rwsPlus,
                             .istr (txt "posted")],
                       .istr (txt "posted"),
                       rseq [.istr (txt "published"), rwsPlus, .istr (txt "online")],
                       .istr (txt "published"),
                       rseq [.istr (txt "available"), rwsPlus, .istr (txt "online")],
                       .istr (txt "accepted"), .istr (txt "received")]),
        .wb]

/-- One cue window of Phase A.  `some r` means the source `return`s `r`
(which can itself be `null`: a month-name match is converted with
`toISO(...)!` and returned unconditionally); `none` means no date shape
matched and the loop advances past this cue. -/
def cueWindow (now : Nat) (window : Str) : Option (Option Str) :=
  match jsSearch reMDY window with
  | some (_, _, caps) =>
    some (toISO now ((capOf caps 3).getD []) (capOf caps 1) (capOf caps 2))
  | none =>
    match jsSearch reDMY window with
    | some (_, _, caps) =>
      some (toISO now ((capOf caps 3).getD []) (capOf caps 2) (capOf caps 1))
    | none =>
      match jsSearch reMY window with
      | some (_, _, caps) =>
        some (toISO now ((capOf caps 2).getD []) (capOf caps 1) none)
      | none =>
        match parseNumericDate window with
        | some num => some (some num)
        | none => none

/-- Phase A cue loop over one zone.  `searchFrom` strictly increases each
iteration and the loop exits once no cue remains, so `zone.length + 1`
rounds of fuel are never exhausted. -/
def cueLoop (now : Nat) (zone : Str) : Nat → Nat → Option (Option Str)
  | 0, _ => none
  | f + 1, searchFrom =>
    match jsSearch cueRe (zone.drop searchFrom) with
    | none => none
    | some (relIdx, _, _) =>
      let cueIdx := searchFrom + relIdx
      let window := (zone.drop cueIdx).take 180
      match cueWindow now window with
      | some r => some r
      | none => cueLoop now zone f (cueIdx + 1)

/-- One line of the Phase B fallback: the candidate date and its base
weight, if any (`add` of a `null` conversion adds nothing, and the
callback `return`s without trying later shapes). -/
def lineCand (now : Nat) (line : Str) : Option (Str × ℚ) :=
  if rtest cueRe line then
    match jsSearch reMDY line with
    | some (_, _, caps) =>
      (toISO now ((capOf caps 3).getD []) (capOf caps 1) (capOf caps 2)).map (fun iso => (iso, 1))
    | none =>
      match jsSearch reDMY line with
      | some (_, _, caps) =>
        (toISO now ((capOf caps 3).getD []) (capOf caps 2) (capOf caps 1)).map
          (fun iso => (iso, 95/100))
      | none =>
        match jsSearch reMY line with
        | some (_, _, caps) =>
          (toISO now ((capOf caps 2).getD []) (capOf caps 1) none).map (fun iso => (iso, 85/100))
        | none => (parseNumericDate line).map (fun iso => (iso, 8/10))
  else if looksLikeRef line then none
  else
    match jsSearch reMDY line with
    | some (_, _, caps) =>
      (toISO now ((capOf caps 3).getD []) (capOf caps 1) (capOf caps 2)).map
        (fun iso => (iso, 75/100))
    | none =>
      match jsSearch reDMY line with
      | some (_, _, caps) =>
        (toISO now ((capOf caps 3).getD []) (capOf caps 2) (capOf caps 1)).map
          (fun iso => (iso, 72/100))
      | none =>
        match jsSearch reMY line with
        | some (_, _, caps) =>
          (toISO now ((capOf caps 2).getD []) (capOf caps 1) none).map (fun iso => (iso, 65/100))
        | none => (parseNumericDate line).map (fun iso => (iso, 55/100))

/-- Stable insertion into a sorted list (used to model the comparator sort
`(a, b) => b.score - a.score || a.ix - b.ix`; all line indices are
distinct, so the comparator is a total order and any correct sort yields
the array `Array.prototype.sort` produces). -/
def insertSorted {α : Type} (le : α → α → Bool) (x : α) : List α → List α
  | [] => [x]
  | y :: t => if le x y then x :: y :: t else y :: insertSorted le x t

/-- Insertion sort by a boolean order. -/
def sortedBy {α : Type} (le : α → α → Bool) (l : List α) : List α :=
  l.foldr (insertSorted le) []

/-- `toLines` of Phase B. -/
def toLines (s : Str) : List Str :=
  ((splitNL s).map jsTrim).filter (fun l => !l.isEmpty)

/-- `findRankedDate`: Phase A (cue windows over header then body prefix),
then the Phase B line-scoring fallback with positional decay. -/
def findRankedDate (now : Nat) (header full : Str) : Option Str :=
  let H := header.take 12000
  let T := full.take 20000
  match cueLoop now H (H.length + 1) 0 with
  | some r => r
  | none =>
    match cueLoop now T (T.length + 1) 0 with
    | some r => r
    | none =>
      let lines := toLines H ++ (toLines T).take 80
      let cands := lines.enum.filterMap (fun p =>
        (lineCand now p.2).map (fun c => (c.1, c.2, p.1)))
      match cands with
      | [] => none
      | _ =>
        let cands := cands.map (fun c =>
          (c.1, c.2.1 + max 0 (15/100 - (c.2.2 : ℚ) * 2/1000), c.2.2))
        let sorted := sortedBy
          (fun a b => decide (a.2.1 > b.2.1) || (decide (a.2.1 = b.2.1) && decide (a.2.2 ≤ b.2.2)))
          cands
        match sorted with
        | [] => none
        | c :: _ => if c.1.isEmpty then none else some c.1

/-! ## `parsers/pdf.ts`: author-zone location -/

/-- The stop cues of `sliceAuthorZone`, in source order. -/
def stopCues : List Reg :=
  [ rseq [.bos, .istr (txt "abstract"), .wb],
    rseq [.bos, .istr (txt "summary"), .wb],
    rseq [.bos, .istr (txt "keyword"), .opt (.istr (txt "s")), .wb],
    rseq [.bos, .istr (txt "jel"), .wb],
    rseq [.bos, .istr (txt "article "),
          rAlts [.istr (txt "info"), .istr (txt "information"), .istr (txt "history")], .wb],
    rseq [.bos, .istr (txt "references"), .wb],
    rseq [.bos, .istr (txt "bibliography"), .wb],
    rseq [.bos, .istr (txt "introduction"), .wb] ]

/-- `ignoreAsTitle` blockers. -/
def ignoreAsTitle : List Reg :=
  [ .istr (txt "electronic copy available at"),
    rseq [.istr (txt "this "), .alt (.istr (txt "paper")) (.istr (txt "version")),
          rch ' ', .opt (.istr (txt "was ")), .istr (txt "posted")],
    .istr (txt "ssrn"),
    rseq [.bos, .istr (txt "open access"), .eos] ]

/-- `AFFIL_CUES` (groups that no caller reads are left uncaptured; a
`test` ignores them). -/
def AFFIL_CUES : List Reg :=
  [ rseq [.wb, rAlts [.istr (txt "section"), .istr (txt "department"), .istr (txt "dept"),
                      .istr (txt "school"), .istr (txt "college"), .istr (txt "faculty"),
                      .istr (txt "division"), .istr (txt "unit"), .istr (txt "institute"),
                      .istr (txt "center"), .istr (txt "centre"), .istr (txt "laboratory"),
                      .istr (txt "lab"), .istr (txt "hospital"), .istr (txt "nhs")], .wb],
    rseq [.wb, .istr (txt "university"), .wb],
    rAlts [rseq [.wb, .istr (txt "imperial"), .wb], rseq [.wb, .istr (txt "london"), .wb],
           rseq [.wb, .istr (txt "uk"), .wb]],
    rAlts [rseq [.wb, .istr (txt "campus"), .wb], rseq [.wb, .istr (txt "road"), .wb],
           rseq [.wb, .istr (txt "st"), .opt (rch '.'), .wb],
           rseq [.wb, .istr (txt "street"), .wb], rseq [.wb, .istr (txt "road"), .wb]],
    rAlts [rseq [.wb, .istr (txt "chelsea"), .wb],
           rseq [.wb, .istr (txt "sw"), rd12, .wb]],
    rseq [.wb, .istr (txt "corresponding author"), .wb],
    rAlts [rch '@', .istr (txt "email"), .istr (txt "telephone"),
           rseq [.istr (txt "tel"), .opt (rch '.')]],
    rseq [rdig, rdig, .star rdig, .cls (fun c => c = '-' || c = ' ' || c = ','),
          rdig, rdig, .star rdig] ]

/-- `looksLikeAffil`. -/
def looksLikeAffil (s : Str) : Bool := AFFIL_CUES.any (fun r => rtest r s)

/-- `isGoodTitle` (the 0.6 letters ratio is compared exactly:
`letters / max(1, len) >= 0.6` iff `5 * letters >= 3 * max(1, len)`). -/
def isGoodTitle (s : Str) : Bool :=
  if ignoreAsTitle.any (fun r => rtest r s) then false
  else if looksLikeAffil s then false
  else if s.any isDigitCh then false
  else if s.count ',' ≥ 3 then false
  else decide (s.length ≥ 20) && decide (5 * s.countP isLetterCh ≥ 3 * max 1 s.length)

/-- The title scan: longest `isGoodTitle` line among the first 20
(strictly longer wins, so the earliest longest is kept). -/
def titleScan (lines : List Str) : Option Nat :=
  (((lines.take 20).enum).foldl (fun acc p =>
    if isGoodTitle p.2 && decide (p.2.length > acc.2) then (some p.1, p.2.length) else acc)
    ((none : Option Nat), 0)).1

/-- `looksLikeTitleContinuation`. -/
def looksLikeTitleContinuation (s : Str) : Bool :=
  if s.isEmpty then false
  else if rtest (rseq [.bos, rwsStar, .istr (txt "by"), .wb]) s then false
  else if stopCues.any (fun r => rtest r s) then false
  else if looksLikeAffil s then false
  else if s.any (fun c => isDigitCh c || c = '@') then false
  else if s.any (fun c => c = ',' || c = ':' || c = ';' || c = '|') then false
  else
    let words := splitWS s
    if words.length < 2 || words.length > 15 then false
    else 5 * s.countP isLetterCh ≥ 3 * max 1 s.length

/-- Skip up to three title-continuation lines after the title. -/
def skipContAux (lines : List Str) : Nat → Nat → Nat
  | i, 0 => i
  | i, fuel + 1 =>
    if i < lines.length && looksLikeTitleContinuation (lines.getD i []) then
      skipContAux lines (i + 1) fuel
    else i

/-- Does line `i` match one of the stop cues? -/
def stopLine (lines : List Str) (i : Nat) : Bool :=
  stopCues.any (fun r => rtest r (lines.getD i []))

/-- The stop-cue scan of `sliceAuthorZone`: first index in
`[i, stop)` whose line matches a stop cue. -/
def zoneEndLoop (lines : List Str) (stop : Nat) : Nat → Nat → Option Nat
  | 0, _ => none
  | f + 1, i =>
    if i < stop then
      (if stopLine lines i then some i
       else zoneEndLoop lines stop f (i + 1))
    else none

/-- The zone end as the source computes it: `end` starts at
`min(len, start + 12)` and is overwritten by the first stop-cue index
found within the next 40 lines — even when that index is larger.  The
fuel `stop + 1` is enough for the scan from any start. -/
def zoneEnd (lines : List Str) (start : Nat) : Nat :=
  match zoneEndLoop lines (min lines.length (start + 40)) (min lines.length (start + 40) + 1) start with
  | some i => i
  | none => min lines.length (start + 12)

/-- The trimmed non-empty lines `sliceAuthorZone` works over. -/
def zoneLines (header : Str) : List Str :=
  ((splitNL header).map jsTrim).filter (fun l => !l.isEmpty)

/-- The zone start: one past the title (then up to three skipped
title-continuation lines), or line 0 when no title was found. -/
def zoneStart (lines : List Str) : Nat :=
  match titleScan lines with
  | some i => skipContAux lines (i + 1) 3
  | none => 0

/-- `sliceAuthorZone`. -/
def sliceAuthorZone (header : Str) : Str :=
  let lines := zoneLines header
  let start := zoneStart lines
  joinNL ((lines.drop start).take (zoneEnd lines start - start))

/-- A sanitized value's month field, when present, is a real month
(01–12); the day-dropping branch of `sanitizeDocumentDate` can emit
values violating this, which is exactly where idempotence breaks. -/
def monthOK (s : Str) : Bool :=
  match isoSplit s with
  | some (_, some (mo, _)) => decide (1 ≤ natOfDigits mo) && decide (natOfDigits mo ≤ 12)
  | _ => true

/-- The C9 invariant, decidably: a fused `document_date` value is `null`
or an ISO-shaped string whose leading year is within `[1900, now+1]`. -/
def fusedDateOK (now : Nat) (e : Except String FusedMetadata) : Bool :=
  match e with
  | .error _ => true
  | .ok r =>
    match r.document_date.value with
    | none => true
    | some v =>
      (isoSplit v).isSome && decide (1900 ≤ natOfDigits (v.take 4)) &&
        decide (natOfDigits (v.take 4) ≤ now + 1)

/-- Shape guard for the amended C2: the language-model `authors` field is
not a non-empty string (the one malformed shape `ensemble.ts`'s own
`cleanAuthors` cannot survive). -/
def llmAuthorsSafe (o : LLMVal) : Bool :=
  match o.authors with
  | some (.strv s) => s.isEmpty
  | _ => true

/-- The `chooseField` call that picks `document_type` before the
preprint override (LLM normalized type at 0.7 versus section heuristic
at 0.6), named so the override can be stated against it. -/
def docTypeChooser (parser : Option ParsedDoc) (o : LLMVal) (sections : Sections) : FieldV Str :=
  chooseField ⟨normalizeDocType o.document_type, 7/10, "llm"⟩
    [⟨guessDocumentType sections, 6/10, jsOrProv (parser.map (fun p => p.method)) "heuristic"⟩]
    (fun v => if truthyStr v then 1 else 0)

/-- A 17-line header (title; author line; 14 digit-bearing filler lines;
"Abstract") whose first stop cue sits at index 16, past start+12 = 13. -/
def C7hdr : Str := txt ("Umbilical arterial catheter duration as risk factor for necrotizing enterocolitis\nJane Doe, John Smith\nz 1\nz 2\nz 3\nz 4\nz 5\nz 6\nz 7\nz 8\nz 9\nz 10\nz 11\nz 12\nz 13\nz 14\nAbstract")

/-- Both characters of a 1–2 digit capture are digits. -/
def pairDigits (p : Char × Option Char) : Prop :=
  isDigitCh p.1 = true ∧ ∀ c2, p.2 = some c2 → isDigitCh c2 = true

/-! ## Supporting lemmas -/

lemma isDigitCh_val {c : Char} (h : isDigitCh c = true) : 48 ≤ c.toNat ∧ c.toNat ≤ 57 := by
  simpa [isDigitCh] using h

lemma readDigits_some :
    ∀ (n : Nat) (s d r : Str), readDigits n s = some (d, r) →
      s = d ++ r ∧ d.length = n ∧ d.all isDigitCh = true := by
  intro n
  induction n with
  | zero =>
    intro s d r h
    simp only [readDigits, Option.some.injEq, Prod.mk.injEq] at h
    obtain ⟨h1, h2⟩ := h
    subst h1; subst h2
    simp
  | succ n ih =>
    intro s d r h
    cases s with
    | nil => simp [readDigits] at h
    | cons c t =>
      simp only [readDigits] at h
      by_cases hc : isDigitCh c
      · rw [if_pos hc] at h
        cases hrd : readDigits n t with
        | none => rw [hrd] at h; simp at h
        | some p =>
          obtain ⟨d1, r1⟩ := p
          rw [hrd] at h
          simp only [Option.map_some', Option.some.injEq, Prod.mk.injEq] at h
          obtain ⟨h1, h2⟩ := h
          obtain ⟨he, hl, ha⟩ := ih t d1 r1 hrd
          subst h1; subst h2; subst he
          refine ⟨rfl, by simp [hl], ?_⟩
          simp [List.all_cons, hc, ha]
      · rw [if_neg hc] at h
        simp at h

lemma readDigits_append :
    ∀ (d r : Str), d.all isDigitCh = true → readDigits d.length (d ++ r) = some (d, r) := by
  intro d
  induction d with
  | nil => intro r _; simp [readDigits]
  | cons c t ih =>
    intro r h
    simp only [List.all_cons, Bool.and_eq_true] at h
    simp [readDigits, h.1, ih r h.2]

lemma isoSplit_inv {s : Str} {p : Str × Option (Str × Option Str)} (h : isoSplit s = some p) :
    p.1.length = 4 ∧ p.1.all isDigitCh = true ∧
    ((p.2 = none ∧ s = p.1) ∨
     (∃ mo, p.2 = some (mo, none) ∧ mo.length = 2 ∧ mo.all isDigitCh = true ∧
        s = p.1 ++ '-' :: mo) ∨
     (∃ mo d, p.2 = some (mo, some d) ∧ mo.length = 2 ∧ mo.all isDigitCh = true ∧
        d.length = 2 ∧ d.all isDigitCh = true ∧ s = p.1 ++ '-' :: (mo ++ '-' :: d))) := by
  unfold isoSplit at h
  cases h4 : readDigits 4 s with
  | none => rw [h4] at h; simp at h
  | some q =>
    obtain ⟨y, r⟩ := q
    rw [h4] at h
    obtain ⟨hs, hyl, hyd⟩ := readDigits_some 4 s y r h4
    cases r with
    | nil =>
      simp only [Option.some.injEq] at h
      subst h
      exact ⟨hyl, hyd, Or.inl ⟨rfl, by simpa using hs⟩⟩
    | cons c r1 =>
      simp only at h
      by_cases hc : c = '-'
      · rw [if_pos hc] at h
        subst hc
        cases h2 : readDigits 2 r1 with
        | none => rw [h2] at h; simp at h
        | some q2 =>
          obtain ⟨mo, r2⟩ := q2
          rw [h2] at h
          obtain ⟨hr1, hml, hmd⟩ := readDigits_some 2 r1 mo r2 h2
          cases r2 with
          | nil =>
            simp only [Option.some.injEq] at h
            subst h
            refine ⟨hyl, hyd, Or.inr (Or.inl ⟨mo, rfl, hml, hmd, ?_⟩)⟩
            rw [hs, hr1]; simp
          | cons c2 r3 =>
            simp only at h
            by_cases hc2 : c2 = '-'
            · rw [if_pos hc2] at h
              subst hc2
              cases h3 : readDigits 2 r3 with
              | none => rw [h3] at h; simp at h
              | some q3 =>
                obtain ⟨d, r4⟩ := q3
                rw [h3] at h
                dsimp only at h
                obtain ⟨hr3, hdl, hdd⟩ := readDigits_some 2 r3 d r4 h3
                by_cases hr4 : r4 = []
                · rw [if_pos hr4] at h
                  simp only [Option.some.injEq] at h
                  subst h; subst hr4
                  refine ⟨hyl, hyd, Or.inr (Or.inr ⟨mo, d, rfl, hml, hmd, hdl, hdd, ?_⟩)⟩
                  rw [hs, hr1, hr3]; simp
                · rw [if_neg hr4] at h; simp at h
            · rw [if_neg hc2] at h; simp at h
      · rw [if_neg hc] at h; simp at h

lemma isoSplit_build_y {y : Str} (hy : y.length = 4) (hyd : y.all isDigitCh = true) :
    isoSplit y = some (y, none) := by
  have h4 := readDigits_append y [] hyd
  rw [hy, List.append_nil] at h4
  unfold isoSplit
  rw [h4]

lemma isoSplit_build_ym {y mo : Str} (hy : y.length = 4) (hyd : y.all isDigitCh = true)
    (hm : mo.length = 2) (hmd : mo.all isDigitCh = true) :
    isoSplit (y ++ '-' :: mo) = some (y, some (mo, none)) := by
  have h4 := readDigits_append y ('-' :: mo) hyd
  rw [hy] at h4
  have h2 := readDigits_append mo [] hmd
  rw [hm, List.append_nil] at h2
  unfold isoSplit
  rw [h4]
  simp [h2]

lemma isoSplit_build_ymd {y mo d : Str} (hy : y.length = 4) (hyd : y.all isDigitCh = true)
    (hm : mo.length = 2) (hmd : mo.all isDigitCh = true)
    (hd : d.length = 2) (hdd : d.all isDigitCh = true) :
    isoSplit (y ++ '-' :: (mo ++ '-' :: d)) = some (y, some (mo, some d)) := by
  have h4 := readDigits_append y ('-' :: (mo ++ '-' :: d)) hyd
  rw [hy] at h4
  have h2 := readDigits_append mo ('-' :: d) hmd
  rw [hm] at h2
  have h3 := readDigits_append d [] hdd
  rw [hd, List.append_nil] at h3
  unfold isoSplit
  rw [h4]
  simp [h2, h3]

lemma dayShape_build {y mo d : Str} (hy : y.length = 4) (hyd : y.all isDigitCh = true)
    (hm : mo.length = 2) (hmd : mo.all isDigitCh = true)
    (hd : d.length = 2) (hdd : d.all isDigitCh = true) :
    dayShape (y ++ '-' :: (mo ++ '-' :: d)) = true := by
  have h4 := readDigits_append y ('-' :: (mo ++ '-' :: d)) hyd
  rw [hy] at h4
  have h2 := readDigits_append mo ('-' :: d) hmd
  rw [hm] at h2
  have h3 := readDigits_append d [] hdd
  rw [hd, List.append_nil] at h3
  unfold dayShape
  rw [h4]
  simp [h2, h3]

lemma dayShape_ym_false {y mo : Str} (hy : y.length = 4) (hyd : y.all isDigitCh = true)
    (hm : mo.length = 2) (hmd : mo.all isDigitCh = true) :
    dayShape (y ++ '-' :: mo) = false := by
  have h4 := readDigits_append y ('-' :: mo) hyd
  rw [hy] at h4
  have h2 := readDigits_append mo [] hmd
  rw [hm, List.append_nil] at h2
  unfold dayShape
  rw [h4]
  simp [h2]

lemma ymShape_build {y mo : Str} (hy : y.length = 4) (hyd : y.all isDigitCh = true)
    (hm : mo.length = 2) (hmd : mo.all isDigitCh = true) :
    ymShape (y ++ '-' :: mo) = true := by
  have h4 := readDigits_append y ('-' :: mo) hyd
  rw [hy] at h4
  have h2 := readDigits_append mo [] hmd
  rw [hm, List.append_nil] at h2
  unfold ymShape
  rw [h4]
  simp [h2]

lemma ymHead_build {y mo rest : Str} (hy : y.length = 4) (hyd : y.all isDigitCh = true)
    (hm : mo.length = 2) (hmd : mo.all isDigitCh = true) :
    ymHead (y ++ '-' :: (mo ++ '-' :: rest)) = some (y ++ '-' :: mo) := by
  have h4 := readDigits_append y ('-' :: (mo ++ '-' :: rest)) hyd
  rw [hy] at h4
  have h2 := readDigits_append mo ('-' :: rest) hmd
  rw [hm] at h2
  unfold ymHead
  rw [h4]
  simp [h2]

lemma take_append_of_length {y rest : Str} (hy : y.length = 4) : (y ++ rest).take 4 = y := by
  rw [← hy]
  exact List.take_left y rest

lemma take7_ym {y mo rest : Str} (hy : y.length = 4) (hm : mo.length = 2) :
    (y ++ '-' :: (mo ++ rest)).take 7 = y ++ '-' :: mo := by
  have h1 : (y ++ '-' :: (mo ++ rest)).take 7 = y.take 7 ++ ('-' :: (mo ++ rest)).take (7 - y.length) := by
    exact List.take_append_eq_append_take
  rw [h1, hy]
  have h2 : y.take 7 = y := List.take_of_length_le (by omega)
  rw [h2]
  have h4 : ('-' :: (mo ++ rest)).take (7 - 4) = '-' :: (mo ++ rest).take 2 := rfl
  rw [h4]
  have h3 : (mo ++ rest).take 2 = mo := by
    rw [← hm]; exact List.take_left mo rest
  rw [h3]

lemma yearHead_inv {s : Str} {c1 c2 c3 c4 : Char} {r : Str}
    (h : yearHead s = some ((c1, c2, c3, c4), r)) :
    s = c1 :: c2 :: c3 :: c4 :: r ∧
    ((c1 = '2' ∧ c2 = '0') ∨ (c1 = '1' ∧ c2 = '9')) ∧
    isDigitCh c3 = true ∧ isDigitCh c4 = true := by
  rcases s with _ | ⟨a, _ | ⟨b, _ | ⟨c, _ | ⟨d, t⟩⟩⟩⟩
  · simp [yearHead] at h
  · simp [yearHead] at h
  · simp [yearHead] at h
  · simp [yearHead] at h
  · simp [yearHead] at h
    obtain ⟨⟨⟨h12, hc⟩, hd⟩, ⟨he1, he2, he3, he4⟩, he5⟩ := h
    subst he1; subst he2; subst he3; subst he4; subst he5
    exact ⟨rfl, h12, hc, hd⟩

lemma natOfDigits_cons (c : Char) (t : Str) :
    natOfDigits (c :: t) = t.foldl (fun n x => n * 10 + (x.toNat - 48)) (c.toNat - 48) := by
  simp [natOfDigits, List.foldl]

lemma year_chars_bounds {c1 c2 c3 c4 : Char}
    (h12 : (c1 = '2' ∧ c2 = '0') ∨ (c1 = '1' ∧ c2 = '9'))
    (h3 : isDigitCh c3 = true) (h4 : isDigitCh c4 = true) :
    1900 ≤ natOfDigits [c1, c2, c3, c4] ∧ natOfDigits [c1, c2, c3, c4] ≤ 2099 := by
  obtain ⟨h3a, h3b⟩ := isDigitCh_val h3
  obtain ⟨h4a, h4b⟩ := isDigitCh_val h4
  rcases h12 with ⟨ha, hb⟩ | ⟨ha, hb⟩ <;> subst ha <;> subst hb <;>
    simp only [natOfDigits, List.foldl] <;>
    · have e1 : ('2' : Char).toNat = 50 := rfl
      have e2 : ('0' : Char).toNat = 48 := rfl
      have e3 : ('1' : Char).toNat = 49 := rfl
      have e4 : ('9' : Char).toNat = 57 := rfl
      omega

lemma pad2_spec {p : Char × Option Char} (h : pairDigits p) :
    (pad2 p).length = 2 ∧ (pad2 p).all isDigitCh = true := by
  obtain ⟨c, o⟩ := p
  cases o with
  | none =>
    refine ⟨rfl, ?_⟩
    simp [pad2, h.1]
    rfl
  | some c2 =>
    refine ⟨rfl, ?_⟩
    have h2 := h.2 c2 rfl
    simp [pad2, h.1, h2]

lemma dayTail_inv {s : Str} {p : Char × Option Char} (h : dayTail s = some p) :
    pairDigits p := by
  cases s with
  | nil => simp [dayTail] at h
  | cons a t =>
    simp only [dayTail] at h
    by_cases ha : isDigitCh a
    · rw [if_pos ha] at h
      cases t with
      | nil =>
        simp only [Option.some.injEq] at h
        subst h
        exact ⟨ha, fun c2 hc2 => by simp at hc2⟩
      | cons b t2 =>
        dsimp only at h
        by_cases hb : isDigitCh b
        · rw [if_pos hb] at h
          simp only [Option.some.injEq] at h
          subst h
          refine ⟨ha, fun c2 hc2 => ?_⟩
          simp only [Option.some.injEq] at hc2
          subst hc2
          exact hb
        · rw [if_neg hb] at h
          simp only [Option.some.injEq] at h
          subst h
          exact ⟨ha, fun c2 hc2 => by simp at hc2⟩
    · rw [if_neg ha] at h
      simp at h

lemma moTwo_inv {m1 : Char} {r2 : Str} {p : (Char × Option Char) × (Char × Option Char)}
    (hm1 : isDigitCh m1 = true) (h : moTwo m1 r2 = some p) :
    pairDigits p.1 ∧ pairDigits p.2 := by
  rcases r2 with _ | ⟨m2, _ | ⟨s2, r3⟩⟩
  · simp [moTwo] at h
  · simp [moTwo] at h
  · simp only [moTwo] at h
    by_cases hg : (isDigitCh m2 && isSepCh s2) = true
    · rw [if_pos hg] at h
      cases hD : dayTail r3 with
      | none => rw [hD] at h; simp at h
      | some dv =>
        rw [hD] at h
        simp only [Option.map_some', Option.some.injEq] at h
        subst h
        simp only [Bool.and_eq_true] at hg
        refine ⟨⟨hm1, fun c2 hc2 => ?_⟩, dayTail_inv hD⟩
        simp only [Option.some.injEq] at hc2
        subst hc2
        exact hg.1
    · rw [if_neg hg] at h; simp at h

lemma moSepDay_inv {s : Str} {mo d : Char × Option Char}
    (h : moSepDay s = some (mo, d)) : pairDigits mo ∧ pairDigits d := by
  cases s with
  | nil => simp [moSepDay] at h
  | cons m1 r2 =>
    simp only [moSepDay] at h
    by_cases hm1 : isDigitCh m1
    · rw [if_pos hm1] at h
      cases h2 : moTwo m1 r2 with
      | some v =>
        rw [h2] at h
        simp only [Option.some.injEq] at h
        have hv := moTwo_inv hm1 h2
        rw [h] at hv
        exact hv
      | none =>
        rw [h2] at h
        rcases r2 with _ | ⟨s2, r3⟩
        · simp at h
        · dsimp only at h
          by_cases hs2 : isSepCh s2
          · rw [if_pos hs2] at h
            cases hD : dayTail r3 with
            | none => rw [hD] at h; simp at h
            | some dv =>
              rw [hD] at h
              simp only [Option.map_some', Option.some.injEq, Prod.mk.injEq] at h
              obtain ⟨h1, h2'⟩ := h
              subst h1; subst h2'
              exact ⟨⟨hm1, fun c2 hc2 => by simp at hc2⟩, dayTail_inv hD⟩
          · rw [if_neg hs2] at h; simp at h
    · rw [if_neg hm1] at h
      simp at h

lemma ymdAt_inv {s : Str} {c1 c2 c3 c4 : Char} {mo d : Char × Option Char}
    (h : ymdAt s = some ((c1, c2, c3, c4), mo, d)) :
    ((c1 = '2' ∧ c2 = '0') ∨ (c1 = '1' ∧ c2 = '9')) ∧
    isDigitCh c3 = true ∧ isDigitCh c4 = true ∧ pairDigits mo ∧ pairDigits d := by
  unfold ymdAt at h
  cases hY : yearHead s with
  | none => rw [hY] at h; simp at h
  | some q =>
    obtain ⟨⟨a1, a2, a3, a4⟩, rest⟩ := q
    rw [hY] at h
    cases rest with
    | nil => simp at h
    | cons s1 r1 =>
      dsimp only at h
      by_cases hs1 : isSepCh s1
      · rw [if_pos hs1] at h
        cases hM : moSepDay r1 with
        | none => rw [hM] at h; simp at h
        | some p =>
          obtain ⟨mo', d'⟩ := p
          rw [hM] at h
          simp only [Option.map_some', Option.some.injEq, Prod.mk.injEq] at h
          obtain ⟨⟨e1, e2, e3, e4⟩, e5, e6⟩ := h
          subst e1; subst e2; subst e3; subst e4; subst e5; subst e6
          obtain ⟨_, h20, hc3, hc4⟩ := yearHead_inv hY
          obtain ⟨hmo, hd⟩ := moSepDay_inv hM
          exact ⟨h20, hc3, hc4, hmo, hd⟩
      · rw [if_neg hs1] at h; simp at h

lemma findYMD_inv {s : Str} {c1 c2 c3 c4 : Char} {mo d : Char × Option Char}
    (h : findYMD s = some ((c1, c2, c3, c4), mo, d)) :
    ((c1 = '2' ∧ c2 = '0') ∨ (c1 = '1' ∧ c2 = '9')) ∧
    isDigitCh c3 = true ∧ isDigitCh c4 = true ∧ pairDigits mo ∧ pairDigits d := by
  induction s with
  | nil => simp [findYMD] at h
  | cons a t ih =>
    unfold findYMD at h
    cases hA : ymdAt (a :: t) with
    | some v =>
      rw [hA] at h
      simp only [Option.some.injEq] at h
      subst h
      exact ymdAt_inv hA
    | none =>
      rw [hA] at h
      exact ih h

lemma findYear_inv {s : Str} {c1 c2 c3 c4 : Char}
    (h : findYear s = some (c1, c2, c3, c4)) :
    ((c1 = '2' ∧ c2 = '0') ∨ (c1 = '1' ∧ c2 = '9')) ∧
    isDigitCh c3 = true ∧ isDigitCh c4 = true := by
  induction s with
  | nil => simp [findYear] at h
  | cons a t ih =>
    unfold findYear at h
    cases hY : yearHead (a :: t) with
    | some q =>
      obtain ⟨⟨b1, b2, b3, b4⟩, rest⟩ := q
      rw [hY] at h
      simp only [Option.some.injEq, Prod.mk.injEq] at h
      obtain ⟨e1, e2, e3, e4⟩ := h
      subst e1; subst e2; subst e3; subst e4
      obtain ⟨_, h20, hc3, hc4⟩ := yearHead_inv hY
      exact ⟨h20, hc3, hc4⟩
    | none =>
      rw [hY] at h
      exact ih h

lemma digit_chars_19_20 {c1 c2 : Char}
    (h : (c1 = '2' ∧ c2 = '0') ∨ (c1 = '1' ∧ c2 = '9')) :
    isDigitCh c1 = true ∧ isDigitCh c2 = true := by
  rcases h with ⟨h1, h2⟩ | ⟨h1, h2⟩ <;> subst h1 <;> subst h2 <;> exact ⟨rfl, rfl⟩

lemma toISODate_some {s out : Str} (h : toISODate (some s) = some out) :
    ∃ y mo d : Str, out = y ++ '-' :: (mo ++ '-' :: d) ∧
      y.length = 4 ∧ y.all isDigitCh = true ∧ mo.length = 2 ∧ mo.all isDigitCh = true ∧
      d.length = 2 ∧ d.all isDigitCh = true := by
  simp only [toISODate] at h
  by_cases hs : s = []
  · rw [if_pos hs] at h; simp at h
  · rw [if_neg hs] at h
    cases hF : findYMD s with
    | some v =>
      obtain ⟨⟨c1, c2, c3, c4⟩, mo, d⟩ := v
      rw [hF] at h
      simp only [Option.some.injEq] at h
      obtain ⟨h20, hc3, hc4, hmo, hd⟩ := findYMD_inv hF
      obtain ⟨hd1, hd2⟩ := digit_chars_19_20 h20
      obtain ⟨hml, hma⟩ := pad2_spec hmo
      obtain ⟨hdl, hda⟩ := pad2_spec hd
      refine ⟨[c1, c2, c3, c4], pad2 mo, pad2 d, ?_, rfl, ?_, hml, hma, hdl, hda⟩
      · rw [← h]; simp
      · simp [hd1, hd2, hc3, hc4]
    | none =>
      rw [hF] at h
      cases hY : findYear s with
      | some yc =>
        obtain ⟨c1, c2, c3, c4⟩ := yc
        rw [hY] at h
        simp only [Option.some.injEq] at h
        obtain ⟨h20, hc3, hc4⟩ := findYear_inv hY
        obtain ⟨hd1, hd2⟩ := digit_chars_19_20 h20
        refine ⟨[c1, c2, c3, c4], ['0', '1'], ['0', '1'], ?_, rfl, ?_, rfl, by decide, rfl,
          by decide⟩
        · rw [← h]; simp
        · simp [hd1, hd2, hc3, hc4]
      | none =>
        rw [hY] at h; simp at h

lemma dayShape_y_false {y : Str} (hy4 : y.length = 4) (hyd : y.all isDigitCh = true) :
    dayShape y = false := by
  have h4 := readDigits_append y [] hyd
  rw [hy4, List.append_nil] at h4
  unfold dayShape
  rw [h4]

lemma isValidISO_y {s y : Str} (h : isoSplit s = some (y, none)) : isValidISO s = true := by
  unfold isValidISO
  rw [h]

lemma isValidISO_ym {s y mo : Str} (h : isoSplit s = some (y, some (mo, none))) :
    isValidISO s = true ↔ 1 ≤ natOfDigits mo ∧ natOfDigits mo ≤ 12 := by
  unfold isValidISO
  rw [h]
  dsimp only
  by_cases hm : (natOfDigits mo < 1 || natOfDigits mo > 12) = true
  · rw [if_pos hm]
    simp only [Bool.or_eq_true, decide_eq_true_eq] at hm
    constructor
    · intro hc; exact absurd hc (by simp)
    · intro hc; omega
  · rw [if_neg hm]
    simp only [Bool.or_eq_true, decide_eq_true_eq] at hm
    push_neg at hm
    constructor
    · intro _; omega
    · intro _; rfl

lemma sanitize_some_spec {now : Nat} {ds : Str} {sections : Sections} {force : Bool} {out : Str}
    (h : sanitizeDocumentDate now (some ds) sections force = some out) :
    (isoSplit out).isSome = true ∧
    1900 ≤ natOfDigits (out.take 4) ∧ natOfDigits (out.take 4) ≤ now + 1 ∧
    (dayShape out = true → isValidISO out = true ∧
      (hasPostedDateEvidence sections = true ∨ force = true)) ∧
    (dayShape out = false → isValidISO out = true ∨ ymShape out = true) := by
  simp only [sanitizeDocumentDate] at h
  by_cases hds : ds = []
  · rw [if_pos hds] at h; simp at h
  · rw [if_neg hds] at h
    cases hN : normalizeIso ds with
    | none => rw [hN] at h; simp at h
    | some iso =>
      rw [hN] at h
      dsimp only at h
      cases hIso : isoSplit iso with
      | none => rw [hIso] at h; simp at h
      | some p =>
        rw [hIso] at h
        simp only [Option.isNone_some, Bool.false_eq_true, if_false] at h
        by_cases hY : (decide (natOfDigits (iso.take 4) < 1900) ||
            decide (natOfDigits (iso.take 4) > now + 1)) = true
        · rw [if_pos hY] at h; simp at h
        · rw [if_neg hY] at h
          simp only [Bool.or_eq_true, decide_eq_true_eq] at hY
          push_neg at hY
          obtain ⟨hY1, hY2⟩ := hY
          obtain ⟨hp4, hpd, hcases⟩ := isoSplit_inv hIso
          by_cases hD : (dayShape iso && !hasPostedDateEvidence sections && !force) = true
          · rw [if_pos hD] at h
            simp only [Bool.and_eq_true, Bool.not_eq_true'] at hD
            obtain ⟨⟨hDay, hEv⟩, hF⟩ := hD
            rcases hcases with ⟨_, hiso⟩ | ⟨mo, _, hml, hmd, hiso⟩ |
              ⟨mo, d, _, hml, hmd, hdl, hdd, hiso⟩
            · rw [hiso] at hDay
              rw [dayShape_y_false hp4 hpd] at hDay
              simp at hDay
            · rw [hiso] at hDay
              rw [dayShape_ym_false hp4 hpd hml hmd] at hDay
              simp at hDay
            · rw [hiso] at h
              rw [ymHead_build hp4 hpd hml hmd] at h
              simp only [Option.some.injEq] at h
              subst h
              have hbo : isoSplit (p.1 ++ '-' :: mo) = some (p.1, some (mo, none)) :=
                isoSplit_build_ym hp4 hpd hml hmd
              have htk : (p.1 ++ '-' :: mo).take 4 = p.1 := take_append_of_length hp4
              have htk2 : (p.1 ++ '-' :: (mo ++ '-' :: d)).take 4 = p.1 :=
                take_append_of_length hp4
              rw [hiso, htk2] at hY1 hY2
              refine ⟨by simp [hbo], by rw [htk]; exact hY1, by rw [htk]; exact hY2, ?_, ?_⟩
              · intro hcon
                rw [dayShape_ym_false hp4 hpd hml hmd] at hcon
                simp at hcon
              · intro _
                exact Or.inr (ymShape_build hp4 hpd hml hmd)
          · rw [if_neg hD] at h
            by_cases hV : isValidISO iso = true
            · rw [if_pos hV] at h
              simp only [Option.some.injEq] at h
              subst h
              refine ⟨by simp [hIso], hY1, hY2, ?_, fun _ => Or.inl hV⟩
              intro hDay
              refine ⟨hV, ?_⟩
              simp only [Bool.and_eq_true, Bool.not_eq_true', not_and] at hD
              by_cases hEv : hasPostedDateEvidence sections = true
              · exact Or.inl hEv
              · right
                have := hD ⟨hDay, by simpa using hEv⟩
                simpa using this
            · rw [if_neg hV] at h; simp at h

lemma dayShape_to_isoSplit {s : Str} (h : dayShape s = true) :
    ∃ y mo d, isoSplit s = some (y, some (mo, some d)) ∧ s = y ++ '-' :: (mo ++ '-' :: d) ∧
      y.length = 4 ∧ y.all isDigitCh = true ∧ mo.length = 2 ∧ mo.all isDigitCh = true ∧
      d.length = 2 ∧ d.all isDigitCh = true := by
  unfold dayShape at h
  cases h4 : readDigits 4 s with
  | none => rw [h4] at h; simp at h
  | some q =>
    obtain ⟨y, r⟩ := q
    rw [h4] at h
    cases r with
    | nil => simp at h
    | cons c r1 =>
      dsimp only at h
      simp only [Bool.and_eq_true, decide_eq_true_eq] at h
      obtain ⟨hc, h'⟩ := h
      subst hc
      cases h2 : readDigits 2 r1 with
      | none => rw [h2] at h'; simp at h'
      | some q2 =>
        obtain ⟨mo, r2⟩ := q2
        rw [h2] at h'
        cases r2 with
        | nil => simp at h'
        | cons c2 r3 =>
          dsimp only at h'
          simp only [Bool.and_eq_true, decide_eq_true_eq] at h'
          obtain ⟨hc2, h''⟩ := h'
          subst hc2
          cases h3 : readDigits 2 r3 with
          | none => rw [h3] at h''; simp at h''
          | some q3 =>
            obtain ⟨d, r4⟩ := q3
            rw [h3] at h''
            simp only [decide_eq_true_eq] at h''
            subst h''
            obtain ⟨hs, hyl, hyd⟩ := readDigits_some 4 s y ('-' :: r1) h4
            obtain ⟨hr1, hml, hmd⟩ := readDigits_some 2 r1 mo ('-' :: r3) h2
            obtain ⟨hr3, hdl, hdd⟩ := readDigits_some 2 r3 d [] h3
            have hse : s = y ++ '-' :: (mo ++ '-' :: d) := by
              rw [hs, hr1, hr3]; simp
            refine ⟨y, mo, d, ?_, hse, hyl, hyd, hml, hmd, hdl, hdd⟩
            rw [hse]
            exact isoSplit_build_ymd hyl hyd hml hmd hdl hdd

/-! ## Claims -/

/-- C5: in `parseNumericDate`'s `A-sep-B-sep-Year` disambiguation, if
`A > 12` and the resulting day is valid for that month the date is parsed
as Day-Month-Year; otherwise if `B > 12` and valid, as Month-Day-Year;
otherwise, whenever `A` is in `[1, 12]`, only `Year-Month` is emitted with
`A` as the month and no day is ever guessed — in particular
`05/06/2023 → 2023-05`. -/
theorem C5_numeric_disambiguation :
    (∀ Y a b : Nat, a > 12 → isValidYMD Y b a = true →
      numDisamb Y a b = some (natToStr Y ++ '-' :: natPad2 b ++ '-' :: natPad2 a)) ∧
    (∀ Y a b : Nat, ¬(a > 12 ∧ isValidYMD Y b a = true) → b > 12 → isValidYMD Y a b = true →
      numDisamb Y a b = some (natToStr Y ++ '-' :: natPad2 a ++ '-' :: natPad2 b)) ∧
    (∀ Y a b : Nat, ¬(a > 12 ∧ isValidYMD Y b a = true) → ¬(b > 12 ∧ isValidYMD Y a b = true) →
      1 ≤ a → a ≤ 12 → numDisamb Y a b = some (natToStr Y ++ '-' :: natPad2 a)) ∧
    parseNumericDate (txt "05/06/2023") = some (txt "2023-05") := by
  refine ⟨?_, ?_, ?_, ?_⟩
  · intro Y a b ha hv
    simp [numDisamb, ha, hv]
  · intro Y a b hn hb hv
    have h1 : (decide (a > 12) && isValidYMD Y b a) = false := by
      by_cases h12 : a > 12
      · have hvf : isValidYMD Y b a = false := by
          cases hvb : isValidYMD Y b a
          · rfl
          · exact absurd ⟨h12, hvb⟩ hn
        simp [hvf]
      · simp [h12]
    simp [numDisamb, h1, hb, hv]
  · intro Y a b hn1 hn2 ha1 ha2
    have h1 : (decide (a > 12) && isValidYMD Y b a) = false := by
      have h12 : ¬a > 12 := by omega
      simp [h12]
    have h2 : (decide (b > 12) && isValidYMD Y a b) = false := by
      by_cases h12 : b > 12
      · have hvf : isValidYMD Y a b = false := by
          cases hvb : isValidYMD Y a b
          · rfl
          · exact absurd ⟨h12, hvb⟩ hn2
        simp [hvf]
      · simp [h12]
    simp [numDisamb, h1, h2, ha1, ha2]
  · decide

/-- C5 witness: the three disambiguation branches at concrete inputs. -/
theorem C5_witness :
    numDisamb 2023 31 12 = some (txt "2023-12-31") ∧
    numDisamb 2023 12 31 = some (txt "2023-12-31") ∧
    numDisamb 2023 5 6 = some (txt "2023-05") := by
  refine ⟨?_, ?_, ?_⟩
  · exact C5_numeric_disambiguation.1 2023 31 12 (by decide) (by decide)
  · exact C5_numeric_disambiguation.2.1 2023 12 31 (by decide) (by decide) (by decide)
  · exact C5_numeric_disambiguation.2.2.1 2023 5 6 (by decide) (by decide) (by decide) (by decide)

/-- C6: `chooseField` keeps the first candidate and replaces it only on
strictly greater fitness, or equal fitness with strictly greater
confidence; hence on equal fitness the higher-confidence candidate wins,
and on an exact tie the first-listed candidate (the whole record: value,
confidence and provenance) wins. -/
theorem C6_chooseField_tiebreak {T : Type} (fitness : Option T → ℚ) :
    (∀ (c0 : FieldV T) (rest : List (FieldV T)),
      chooseField c0 rest fitness = rest.foldl (fun best c =>
        if fitness c.value > fitness best.value ∨
           (fitness c.value = fitness best.value ∧ c.confidence > best.confidence)
        then c else best) c0) ∧
    (∀ x y : FieldV T, fitness y.value = fitness x.value → y.confidence > x.confidence →
      chooseField x [y] fitness = y) ∧
    (∀ x y : FieldV T, fitness y.value = fitness x.value → y.confidence = x.confidence →
      chooseField x [y] fitness = x) := by
  refine ⟨fun _ _ => rfl, ?_, ?_⟩
  · intro x y heq hconf
    simp [chooseField, heq, hconf]
  · intro x y heq hconf
    simp [chooseField, heq, hconf]

/-- C6 witness: both tie-break consequences at concrete candidates. -/
theorem C6_witness :
    chooseField (⟨some 1, 1/2, "llm"⟩ : FieldV Nat) [⟨some 2, 3/4, "heuristic"⟩] (fun _ => 0) =
      ⟨some 2, 3/4, "heuristic"⟩ ∧
    chooseField (⟨some 1, 1/2, "llm"⟩ : FieldV Nat) [⟨some 2, 1/2, "heuristic"⟩] (fun _ => 0) =
      ⟨some 1, 1/2, "llm"⟩ :=
  ⟨(C6_chooseField_tiebreak (fun _ => 0)).2.1 _ _ rfl (by norm_num),
   (C6_chooseField_tiebreak (fun _ => 0)).2.2 _ _ rfl rfl⟩

/-- C1: when `sanitizeDocumentDate` is handed a (normalised) value with day
precision whose year passes the range gate, the day is retained only if
`forceAcceptDay` is true or the posted-date evidence regex matches
header+body; otherwise the result is the `YYYY-MM` prefix (a month is
always present in a day-precision value), so the year is never discarded
merely because the day was dropped. -/
theorem C1_day_precision_requires_evidence
    (now : Nat) (ds : Str) (sections : Sections) (force : Bool) (iso : Str)
    (hds : ds ≠ [])
    (hN : normalizeIso ds = some iso)
    (hDay : dayShape iso = true)
    (hY1 : 1900 ≤ natOfDigits (iso.take 4))
    (hY2 : natOfDigits (iso.take 4) ≤ now + 1) :
    ((hasPostedDateEvidence sections = false ∧ force = false) →
       sanitizeDocumentDate now (some ds) sections force = some (iso.take 7) ∧
       ymShape (iso.take 7) = true) ∧
    (∀ out, sanitizeDocumentDate now (some ds) sections force = some out →
       dayShape out = true → hasPostedDateEvidence sections = true ∨ force = true) := by
  constructor
  · rintro ⟨hEv, hF⟩
    obtain ⟨y, mo, d, hIso, hiso, hyl, hyd, hml, hmd, hdl, hdd⟩ := dayShape_to_isoSplit hDay
    have hcond : (dayShape iso && !hasPostedDateEvidence sections && !force) = true := by
      simp [hDay, hEv, hF]
    have hYg : (decide (natOfDigits (iso.take 4) < 1900) ||
        decide (natOfDigits (iso.take 4) > now + 1)) = false := by
      simp only [Bool.or_eq_false_iff, decide_eq_false_iff_not]
      omega
    have htk7 : iso.take 7 = y ++ '-' :: mo := by
      rw [hiso]; exact take7_ym hyl hml
    constructor
    · simp only [sanitizeDocumentDate]
      rw [if_neg hds, hN]
      dsimp only
      rw [hIso]
      simp only [Option.isNone_some, Bool.false_eq_true, if_false]
      rw [if_neg (by rw [hYg]; simp), if_pos hcond]
      have hh : ymHead iso = some (y ++ '-' :: mo) := by
        rw [hiso]; exact ymHead_build hyl hyd hml hmd
      rw [hh, htk7]
    · rw [htk7]
      exact ymShape_build hyl hyd hml hmd
  · intro out hout hdOut
    exact ((sanitize_some_spec hout).2.2.2.1 hdOut).2

/-- C1 witness: `2024-05-13` with no evidence and no force flag is cut to
`2024-05`. -/
theorem C1_witness :
    sanitizeDocumentDate 2026 (some (txt "2024-05-13")) ⟨some [], some []⟩ false =
      some ((txt "2024-05-13").take 7) ∧
    ymShape ((txt "2024-05-13").take 7) = true :=
  (C1_day_precision_requires_evidence 2026 (txt "2024-05-13") ⟨some [], some []⟩ false
      (txt "2024-05-13") (by decide) (by decide) (by decide) (by decide) (by decide)).1
    ⟨by decide, rfl⟩

/-- C3 counterexample: `sanitizeDocumentDate` is not idempotent.
`2024-13-05` (day precision, impossible month) with no evidence gets its
day dropped without calendar validation, giving `2024-13`; a second
application runs `isValidISO` on it and returns `null`. -/
theorem C3_counterexample :
    sanitizeDocumentDate 2026 (some (txt "2024-13-05")) ⟨some [], some []⟩ false =
      some (txt "2024-13") ∧
    sanitizeDocumentDate 2026
      (sanitizeDocumentDate 2026 (some (txt "2024-13-05")) ⟨some [], some []⟩ false)
      ⟨some [], some []⟩ false = none := by
  constructor
  · decide
  · decide

/-- C3 (amended): applying `sanitizeDocumentDate` twice equals applying it
once on every input whose first result has a valid month field (in
particular whenever the first result is `null`, a bare year, a day-valid
ISO date, or a year-month with month 01–12); only a day-dropped value
with an out-of-range month breaks the fixpoint. -/
theorem C3_sanitize_idempotent_on_valid_months
    (now : Nat) (d : Option Str) (sections : Sections) (force : Bool)
    (h : ∀ out, sanitizeDocumentDate now d sections force = some out → monthOK out = true) :
    sanitizeDocumentDate now (sanitizeDocumentDate now d sections force) sections force =
      sanitizeDocumentDate now d sections force := by
  cases d with
  | none => rfl
  | some ds =>
    cases hr : sanitizeDocumentDate now (some ds) sections force with
    | none => rfl
    | some out =>
      have hm := h out hr
      obtain ⟨hSome, hY1, hY2, hDayC, _⟩ := sanitize_some_spec hr
      obtain ⟨p, hIso⟩ := Option.isSome_iff_exists.mp hSome
      obtain ⟨p1, p2⟩ := p
      have hne : out ≠ [] := by
        intro he
        rw [he] at hIso
        simp [isoSplit, readDigits] at hIso
      have hNorm : normalizeIso out = some out := by
        simp [normalizeIso, hIso]
      obtain ⟨hp4, hpd, hcases⟩ := isoSplit_inv hIso
      simp only at hp4 hpd hcases
      simp only [sanitizeDocumentDate]
      rw [if_neg hne, hNorm]
      dsimp only
      rw [hIso]
      simp only [Option.isNone_some, Bool.false_eq_true, if_false]
      rw [if_neg (by simp only [Bool.or_eq_true, decide_eq_true_eq]; omega)]
      cases hDay : dayShape out with
      | true =>
        obtain ⟨hV, hEF⟩ := hDayC hDay
        have hcond : (true && !hasPostedDateEvidence sections && !force) = false := by
          rcases hEF with hEv | hF
          · simp [hEv]
          · simp [hF]
        rw [hcond]
        simp only [Bool.false_eq_true, if_false]
        rw [if_pos hV]
      | false =>
        have hcond : (false && !hasPostedDateEvidence sections && !force) = false := by
          simp
        rw [hcond]
        simp only [Bool.false_eq_true, if_false]
        rcases hcases with ⟨hnone, hout⟩ | ⟨mo, hsome, hml, hmd, hout⟩ |
          ⟨mo, dd, hsome, hml, hmd, hdl, hdd, hout⟩
        · subst hnone
          have hV : isValidISO out = true := isValidISO_y hIso
          rw [if_pos hV]
        · subst hsome
          have hmOK : 1 ≤ natOfDigits mo ∧ natOfDigits mo ≤ 12 := by
            unfold monthOK at hm
            rw [hIso] at hm
            simpa using hm
          rw [if_pos ((isValidISO_ym hIso).mpr hmOK)]
        · exfalso
          rw [hout] at hDay
          rw [dayShape_build hp4 hpd hml hmd hdl hdd] at hDay
          simp at hDay

/-- C3 witness: idempotence at a well-formed day-precision input. -/
theorem C3_witness :
    sanitizeDocumentDate 2026
      (sanitizeDocumentDate 2026 (some (txt "2024-05-13")) ⟨some [], some []⟩ false)
      ⟨some [], some []⟩ false =
    sanitizeDocumentDate 2026 (some (txt "2024-05-13")) ⟨some [], some []⟩ false := by
  apply C3_sanitize_idempotent_on_valid_months
  intro out hout
  have he : sanitizeDocumentDate 2026 (some (txt "2024-05-13")) ⟨some [], some []⟩ false =
      some (txt "2024-05") := by decide
  rw [he] at hout
  simp only [Option.some.injEq] at hout
  subst hout
  decide

/-- C10 counterexample: `published in 2050` is in the claim's scope (not
ISO-shaped, no month/day component, a standalone `20xx` year) and
`toISODate` does map it to `2050-01-01`; but with the current year 2026
the claimed result `2050-01` is not produced — the year gate rejects the
value to `null` instead. -/
theorem C10_counterexample :
    isoSplit (txt "published in 2050") = none ∧
    findYMD (txt "published in 2050") = none ∧
    findYear (txt "published in 2050") = some ('2', '0', '5', '0') ∧
    toISODate (some (txt "published in 2050")) = some (txt "2050-01-01") ∧
    sanitizeDocumentDate 2026 (some (txt "published in 2050")) ⟨some [], some []⟩ false =
      none := by
  refine ⟨by decide, by decide, by decide, by decide, by decide⟩

/-- C10 (amended): for a non-ISO date string containing a standalone
`19xx`/`20xx` year and no month/day shape, `toISODate` fabricates
`YYYY-01-01`, so — provided the year also passes the `[1900, now+1]`
gate, which the original claim omitted — `sanitizeDocumentDate` returns
`YYYY-01` without evidence, `YYYY-01-01` with evidence or the force flag,
and in no case the bare year. -/
theorem C10_january_fabrication
    (now : Nat) (ds : Str) (sections : Sections) (force : Bool)
    (c1 c2 c3 c4 : Char)
    (hds : ds ≠ [])
    (hIso : isoSplit ds = none)
    (hYMD : findYMD ds = none)
    (hYr : findYear ds = some (c1, c2, c3, c4))
    (hBound : natOfDigits [c1, c2, c3, c4] ≤ now + 1) :
    ((hasPostedDateEvidence sections = false ∧ force = false) →
      sanitizeDocumentDate now (some ds) sections force =
        some ([c1, c2, c3, c4] ++ txt "-01")) ∧
    ((hasPostedDateEvidence sections = true ∨ force = true) →
      sanitizeDocumentDate now (some ds) sections force =
        some ([c1, c2, c3, c4] ++ txt "-01-01")) ∧
    sanitizeDocumentDate now (some ds) sections force ≠ some [c1, c2, c3, c4] := by
  obtain ⟨h20, hc3, hc4⟩ := findYear_inv hYr
  obtain ⟨hd1, hd2⟩ := digit_chars_19_20 h20
  obtain ⟨hYlo, hYhi⟩ := year_chars_bounds h20 hc3 hc4
  set y : Str := [c1, c2, c3, c4] with hy
  have hyl : y.length = 4 := rfl
  have hyd : y.all isDigitCh = true := by simp [hy, hd1, hd2, hc3, hc4]
  have hNorm : normalizeIso ds = some (y ++ '-' :: (['0', '1'] ++ '-' :: ['0', '1'])) := by
    unfold normalizeIso
    rw [hIso]
    simp only [Option.isSome_none, Bool.false_eq_true, if_false]
    unfold toISODate
    dsimp only
    rw [if_neg hds, hYMD, hYr]
    rfl
  have hIsoB : isoSplit (y ++ '-' :: (['0', '1'] ++ '-' :: ['0', '1'])) =
      some (y, some (['0', '1'], some ['0', '1'])) :=
    isoSplit_build_ymd hyl hyd (by decide) (by decide) (by decide) (by decide)
  have htk : (y ++ '-' :: (['0', '1'] ++ '-' :: ['0', '1'])).take 4 = y :=
    take_append_of_length hyl
  have hDayB : dayShape (y ++ '-' :: (['0', '1'] ++ '-' :: ['0', '1'])) = true :=
    dayShape_build hyl hyd (by decide) (by decide) (by decide) (by decide)
  have hjy : jsDateYear (natOfDigits y) = natOfDigits y := by
    unfold jsDateYear
    rw [if_neg (by omega)]
  have hVal : isValidISO (y ++ '-' :: (['0', '1'] ++ '-' :: ['0', '1'])) = true := by
    unfold isValidISO
    rw [hIsoB]
    simp only [hjy]
    have hm1 : natOfDigits ['0', '1'] = 1 := by decide
    simp [hjy, daysInMonth, hm1]
  have hCore : sanitizeDocumentDate now (some ds) sections force =
      (if (!hasPostedDateEvidence sections && !force) = true
       then some (y ++ '-' :: ['0', '1'])
       else some (y ++ '-' :: (['0', '1'] ++ '-' :: ['0', '1']))) := by
    simp only [sanitizeDocumentDate]
    rw [if_neg hds, hNorm]
    dsimp only
    rw [hIsoB]
    simp only [Option.isNone_some, Bool.false_eq_true, if_false]
    rw [htk]
    rw [if_neg (by simp only [Bool.or_eq_true, decide_eq_true_eq]; omega)]
    rw [hDayB]
    simp only [Bool.true_and]
    by_cases hc : (!hasPostedDateEvidence sections && !force) = true
    · rw [if_pos hc, if_pos hc]
      rw [ymHead_build hyl hyd (by decide) (by decide)]
    · rw [if_neg hc, if_neg hc]
      rw [if_pos hVal]
  have hA : (hasPostedDateEvidence sections = false ∧ force = false) →
      sanitizeDocumentDate now (some ds) sections force = some (y ++ '-' :: ['0', '1']) := by
    rintro ⟨hEv, hFo⟩
    rw [hCore, if_pos (by simp [hEv, hFo])]
  have hB : (hasPostedDateEvidence sections = true ∨ force = true) →
      sanitizeDocumentDate now (some ds) sections force =
        some (y ++ '-' :: (['0', '1'] ++ '-' :: ['0', '1'])) := by
    intro hEF
    rw [hCore]
    rcases hEF with hEv | hFo
    · rw [if_neg (by simp [hEv])]
    · rw [if_neg (by simp [hFo])]
  refine ⟨fun hp => by rw [hA hp]; rfl, fun hp => by rw [hB hp]; rfl, ?_⟩
  intro hcon
  rw [hCore] at hcon
  by_cases hc : (!hasPostedDateEvidence sections && !force) = true
  · rw [if_pos hc] at hcon
    simp only [Option.some.injEq] at hcon
    have hlen := congrArg List.length hcon
    simp [List.length_append] at hlen
  · rw [if_neg hc] at hcon
    simp only [Option.some.injEq] at hcon
    have hlen := congrArg List.length hcon
    simp [List.length_append] at hlen

/-- C10 witness: `published in 2024` becomes `2024-01`, never the bare
year `2024`. -/
theorem C10_witness :
    sanitizeDocumentDate 2026 (some (txt "published in 2024")) ⟨some [], some []⟩ false =
      some (['2', '0', '2', '4'] ++ txt "-01") :=
  (C10_january_fabrication 2026 (txt "published in 2024") ⟨some [], some []⟩ false
      '2' '0' '2' '4' (by decide) (by decide) (by decide) (by decide) (by decide)).1
    ⟨by decide, rfl⟩

lemma cleanAuthors_arr_ok (a : Option (List Str)) :
    ∃ v, cleanAuthors (a.map AuthorsVal.arr) = Except.ok v := by
  cases a with
  | none => exact ⟨none, rfl⟩
  | some l =>
    by_cases hl : l = []
    · exact ⟨none, by simp [cleanAuthors, hl]⟩
    · exact ⟨cleanAuthorsArr l, by simp [cleanAuthors, hl]⟩

lemma fuse_eq_ok {now : Nat} {base : MetaPartial} {parser : Option ParsedDoc} {o : LLMVal}
    {sections : Sections} {v1 v2 : Option (List Str)}
    (h1 : cleanAuthors ((jsOrA (parser.bind (fun p => p.candidates.authors)) base.authors).map
      AuthorsVal.arr) = Except.ok v1)
    (h2 : cleanAuthors o.authors = Except.ok v2) :
    fuseCandidates now base parser (some o) sections =
      Except.ok (fuseAssemble now base parser o sections v1 v2) := by
  unfold fuseCandidates
  rw [h1]
  dsimp only
  rw [h2]

lemma fuse_ok_inv {now : Nat} {base : MetaPartial} {parser : Option ParsedDoc} {o : LLMVal}
    {sections : Sections} {r : FusedMetadata}
    (h : fuseCandidates now base parser (some o) sections = Except.ok r) :
    ∃ v2, cleanAuthors o.authors = Except.ok v2 ∧
      ∃ v1, cleanAuthors ((jsOrA (parser.bind (fun p => p.candidates.authors)) base.authors).map
        AuthorsVal.arr) = Except.ok v1 ∧
        r = fuseAssemble now base parser o sections v1 v2 := by
  obtain ⟨v1, h1⟩ := cleanAuthors_arr_ok (jsOrA (parser.bind (fun p => p.candidates.authors))
    base.authors)
  cases h2 : cleanAuthors o.authors with
  | error e =>
    exfalso
    unfold fuseCandidates at h
    rw [h1] at h
    dsimp only at h
    rw [h2] at h
    simp at h
  | ok v2 =>
    refine ⟨v2, rfl, v1, h1, ?_⟩
    rw [fuse_eq_ok h1 h2] at h
    simpa using h.symm

/-- C9: whenever `fuseCandidates` returns, the `document_date` field's
value is either null or a string matching the ISO shape
`^\d{4}(-\d{2}(-\d{2})?)?$` (captured by `isoSplit`) with its leading
four-digit year in `[1900, currentYear+1]`. -/
theorem C9_fused_date_invariant (now : Nat) (base : MetaPartial) (parser : Option ParsedDoc)
    (llm : Option LLMVal) (sections : Sections) :
    fusedDateOK now (fuseCandidates now base parser llm sections) = true := by
  cases llm with
  | none => rfl
  | some o =>
    obtain ⟨v1, h1⟩ := cleanAuthors_arr_ok (jsOrA (parser.bind (fun p => p.candidates.authors))
      base.authors)
    cases h2 : cleanAuthors o.authors with
    | error e =>
      have he : fuseCandidates now base parser (some o) sections = .error e := by
        unfold fuseCandidates
        rw [h1]
        dsimp only
        rw [h2]
      rw [he]
      rfl
    | ok v2 =>
      rw [fuse_eq_ok h1 h2]
      obtain ⟨dp, cf, hdv⟩ : ∃ dp cf,
          (fuseAssemble now base parser o sections v1 v2).document_date.value =
            sanitizeDocumentDate now dp sections cf := ⟨_, _, rfl⟩
      unfold fusedDateOK
      dsimp only
      rw [hdv]
      cases dp with
      | none => rfl
      | some ds =>
        cases hs : sanitizeDocumentDate now (some ds) sections cf with
        | none => rfl
        | some out =>
          obtain ⟨hSome, hY1, hY2, _, _⟩ := sanitize_some_spec hs
          simp [hSome, hY1, hY2]

/-- C2 counterexample: the claim includes a `null`/`undefined`
language-model input, but `fuseCandidates` then throws a `TypeError` on
its very first property access (`llm.document_type`) instead of
returning a fused record. -/
theorem C2_counterexample :
    fuseCandidates 2026 ⟨none, none⟩ none none ⟨some [], some []⟩ =
      Except.error "TypeError: cannot read properties of null" := rfl

/-- C2 (amended): for every language-model *object* — all fields may be
absent or null, and `authors` may be an empty string or any array —
`fuseCandidates` returns a `FusedMetadata` record without throwing; but a
`null`/`undefined` language-model value throws on the first property
access, and a non-empty string `authors` throws inside `cleanAuthors`
(`a.map` is not a function on strings). -/
theorem C2_fuse_total_on_llm_objects (now : Nat) (base : MetaPartial)
    (parser : Option ParsedDoc) (o : LLMVal) (sections : Sections)
    (h : llmAuthorsSafe o = true) :
    ∃ r, fuseCandidates now base parser (some o) sections = Except.ok r := by
  obtain ⟨v1, h1⟩ := cleanAuthors_arr_ok (jsOrA (parser.bind (fun p => p.candidates.authors))
    base.authors)
  have h2 : ∃ v2, cleanAuthors o.authors = Except.ok v2 := by
    unfold llmAuthorsSafe at h
    cases ho : o.authors with
    | none => exact ⟨none, rfl⟩
    | some av =>
      cases av with
      | arr l =>
        by_cases hl : l = []
        · exact ⟨none, by simp [cleanAuthors, hl]⟩
        · exact ⟨cleanAuthorsArr l, by simp [cleanAuthors, hl]⟩
      | strv s =>
        rw [ho] at h
        have hs : s = [] := by simpa [List.isEmpty_iff] using h
        exact ⟨none, by simp [cleanAuthors, hs]⟩
  obtain ⟨v2, h2⟩ := h2
  exact ⟨_, fuse_eq_ok h1 h2⟩

/-- C2 witness: an all-null language-model object fuses successfully. -/
theorem C2_witness :
    ∃ r, fuseCandidates 2026 ⟨none, none⟩ none (some ⟨none, none, none, none, none, none⟩)
      ⟨some [], some []⟩ = Except.ok r :=
  C2_fuse_total_on_llm_objects 2026 ⟨none, none⟩ none ⟨none, none, none, none, none, none⟩
    ⟨some [], some []⟩ rfl

/-- C8: when at least two preprint cues match the lower-cased
header+body, any successful fusion carries `document_type = "Preprint"`;
and if the chooser's pick was not already `"Preprint"`, the final field
is the chooser's record overridden with value `"Preprint"`, confidence
`max(previous, 0.9)` and provenance `"heuristic"`. -/
theorem C8_preprint_override (now : Nat) (base : MetaPartial) (parser : Option ParsedDoc)
    (o : LLMVal) (sections : Sections) (r : FusedMetadata)
    (hSig : 2 ≤ preprintSignals sections)
    (hok : fuseCandidates now base parser (some o) sections = Except.ok r) :
    r.document_type.value = some (txt "Preprint") ∧
    ((docTypeChooser parser o sections).value ≠ some (txt "Preprint") →
      r.document_type = { docTypeChooser parser o sections with
        value := some (txt "Preprint"),
        confidence := max (docTypeChooser parser o sections).confidence (9/10),
        provenance := "heuristic" }) := by
  obtain ⟨v2, h2, v1, h1, hr⟩ := fuse_ok_inv hok
  subst hr
  have hdt : (fuseAssemble now base parser o sections v1 v2).document_type =
      fusedDocType parser o sections := rfl
  rw [hdt]
  have hsp : (strongPreprintHeuristic sections).isSome = true := by
    unfold strongPreprintHeuristic
    rw [if_pos hSig]
    rfl
  have hfe : fusedDocType parser o sections =
      if (strongPreprintHeuristic sections).isSome &&
          decide ((docTypeChooser parser o sections).value ≠ some (txt "Preprint")) then
        { docTypeChooser parser o sections with
          value := some (txt "Preprint"),
          confidence := max (docTypeChooser parser o sections).confidence (9/10),
          provenance := "heuristic" }
      else docTypeChooser parser o sections := rfl
  rw [hfe, hsp]
  by_cases hv : (docTypeChooser parser o sections).value = some (txt "Preprint")
  · simp [hv]
  · simp [hv]

/-- C8 witness: a header containing "a preprint on ssrn" fires two cues,
and fusing an all-null language-model object then yields
`document_type = "Preprint"`. -/
theorem C8_witness :
    (fuseAssemble 2026 ⟨none, none⟩ none ⟨none, none, none, none, none, none⟩
        ⟨some (txt "a preprint on ssrn"), some []⟩ none none).document_type.value =
      some (txt "Preprint") :=
  (C8_preprint_override 2026 ⟨none, none⟩ none ⟨none, none, none, none, none, none⟩
    ⟨some (txt "a preprint on ssrn"), some []⟩ _ (by decide) rfl).1

lemma firstSome_some {α β : Type} {f : α → Option β} :
    ∀ {l : List α} {v : β}, firstSome f l = some v → ∃ x ∈ l, f x = some v := by
  intro l
  induction l with
  | nil => intro v h; simp [firstSome] at h
  | cons x t ih =>
    intro v h
    simp only [firstSome] at h
    cases hx : f x with
    | some w =>
      rw [hx] at h
      dsimp only at h
      exact ⟨x, List.mem_cons_self x t, hx.trans h⟩
    | none =>
      rw [hx] at h
      dsimp only at h
      obtain ⟨y, hy, hfy⟩ := ih h
      exact ⟨y, List.mem_cons_of_mem x hy, hfy⟩

lemma scanNum_inv {β : Type} {patAt : Str → Option β} {v : β} :
    ∀ {s : Str} {prev : Option Char}, scanNum patAt prev s = some v → ∃ u, patAt u = some v := by
  intro s
  induction s with
  | nil =>
    intro prev h
    simp only [scanNum] at h
    by_cases hok : scanOk prev = true
    · rw [if_pos hok] at h
      cases hp : patAt [] with
      | some w =>
        rw [hp] at h
        dsimp only at h
        exact ⟨[], hp.trans h⟩
      | none =>
        rw [hp] at h
        dsimp only at h
        exact Option.noConfusion h
    · rw [if_neg hok] at h
      dsimp only at h
      exact Option.noConfusion h
  | cons c t ih =>
    intro prev h
    simp only [scanNum] at h
    by_cases hok : scanOk prev = true
    · rw [if_pos hok] at h
      cases hp : patAt (c :: t) with
      | some w =>
        rw [hp] at h
        dsimp only at h
        exact ⟨c :: t, hp.trans h⟩
      | none =>
        rw [hp] at h
        dsimp only at h
        exact ih h
    · rw [if_neg hok] at h
      dsimp only at h
      exact ih h

lemma numPat1At_year {u : Str} {Y M D : Nat} (h : numPat1At u = some (Y, M, D)) :
    1900 ≤ Y ∧ Y ≤ 2099 := by
  unfold numPat1At at h
  cases hy : yearHead u with
  | none => rw [hy] at h; exact Option.noConfusion h
  | some pr =>
    obtain ⟨⟨c1, c2, c3, c4⟩, rest⟩ := pr
    rw [hy] at h
    cases rest with
    | nil => dsimp only at h; exact Option.noConfusion h
    | cons s1 r1 =>
      dsimp only at h
      by_cases hs : isSepCh s1 = true
      · rw [if_pos hs] at h
        obtain ⟨p, -, h2⟩ := firstSome_some h
        cases hp2 : p.2 with
        | nil => rw [hp2] at h2; dsimp only at h2; exact Option.noConfusion h2
        | cons s2 r3 =>
          rw [hp2] at h2
          dsimp only at h2
          by_cases hs2 : isSepCh s2 = true
          · rw [if_pos hs2] at h2
            obtain ⟨q, -, h3⟩ := firstSome_some h2
            by_cases hnw : nonWordNext q.2 = true
            · rw [if_pos hnw] at h3
              obtain ⟨hYe, -, -⟩ : natOfDigits [c1, c2, c3, c4] = Y ∧ p.1 = M ∧ q.1 = D := by
                simpa using h3
              obtain ⟨-, h12, h3d, h4d⟩ := yearHead_inv hy
              have hb := year_chars_bounds h12 h3d h4d
              rw [hYe] at hb
              exact hb
            · rw [if_neg hnw] at h3; exact Option.noConfusion h3
          · rw [if_neg hs2] at h2; exact Option.noConfusion h2
      · rw [if_neg hs] at h; exact Option.noConfusion h

lemma numPat2At_year {u : Str} {a b Y : Nat} (h : numPat2At u = some (a, b, Y)) :
    1900 ≤ Y ∧ Y ≤ 2099 := by
  unfold numPat2At at h
  obtain ⟨p, -, h2⟩ := firstSome_some h
  cases hp2 : p.2 with
  | nil => rw [hp2] at h2; dsimp only at h2; exact Option.noConfusion h2
  | cons s1 r2 =>
    rw [hp2] at h2
    dsimp only at h2
    by_cases hs : isSepCh s1 = true
    · rw [if_pos hs] at h2
      obtain ⟨q, -, h3⟩ := firstSome_some h2
      cases hq2 : q.2 with
      | nil => rw [hq2] at h3; dsimp only at h3; exact Option.noConfusion h3
      | cons s2 r4 =>
        rw [hq2] at h3
        dsimp only at h3
        by_cases hs2 : isSepCh s2 = true
        · rw [if_pos hs2] at h3
          cases hy : yearHead r4 with
          | none => rw [hy] at h3; dsimp only at h3; exact Option.noConfusion h3
          | some pr =>
            obtain ⟨⟨c1, c2, c3, c4⟩, r5⟩ := pr
            rw [hy] at h3
            dsimp only at h3
            by_cases hnw : nonWordNext r5 = true
            · rw [if_pos hnw] at h3
              obtain ⟨-, -, hYe⟩ : p.1 = a ∧ q.1 = b ∧ natOfDigits [c1, c2, c3, c4] = Y := by
                simpa using h3
              obtain ⟨-, h12, h3d, h4d⟩ := yearHead_inv hy
              have hb := year_chars_bounds h12 h3d h4d
              rw [hYe] at hb
              exact hb
            · rw [if_neg hnw] at h3; exact Option.noConfusion h3
        · rw [if_neg hs2] at h3; exact Option.noConfusion h3
    · rw [if_neg hs] at h2; exact Option.noConfusion h2

lemma numPat3At_year {u : Str} {Y M : Nat} (h : numPat3At u = some (Y, M)) :
    1900 ≤ Y ∧ Y ≤ 2099 := by
  unfold numPat3At at h
  cases hy : yearHead u with
  | none => rw [hy] at h; exact Option.noConfusion h
  | some pr =>
    obtain ⟨⟨c1, c2, c3, c4⟩, rest⟩ := pr
    rw [hy] at h
    cases rest with
    | nil => dsimp only at h; exact Option.noConfusion h
    | cons s1 r1 =>
      dsimp only at h
      by_cases hs : isSepCh s1 = true
      · rw [if_pos hs] at h
        obtain ⟨p, -, h2⟩ := firstSome_some h
        by_cases hnw : nonWordNext p.2 = true
        · rw [if_pos hnw] at h2
          obtain ⟨hYe, -⟩ : natOfDigits [c1, c2, c3, c4] = Y ∧ p.1 = M := by simpa using h2
          obtain ⟨-, h12, h3d, h4d⟩ := yearHead_inv hy
          have hb := year_chars_bounds h12 h3d h4d
          rw [hYe] at hb
          exact hb
        · rw [if_neg hnw] at h2; exact Option.noConfusion h2
      · rw [if_neg hs] at h; exact Option.noConfusion h

lemma numPat4At_year {u v : Str} (h : numPat4At u = some v) :
    1900 ≤ natOfDigits v ∧ natOfDigits v ≤ 2099 := by
  unfold numPat4At at h
  cases hy : yearHead u with
  | none => rw [hy] at h; exact Option.noConfusion h
  | some pr =>
    obtain ⟨⟨c1, c2, c3, c4⟩, r⟩ := pr
    rw [hy] at h
    dsimp only at h
    by_cases hnw : nonWordNext r = true
    · rw [if_pos hnw] at h
      have hv : [c1, c2, c3, c4] = v := by simpa using h
      obtain ⟨-, h12, h3d, h4d⟩ := yearHead_inv hy
      have hb := year_chars_bounds h12 h3d h4d
      rw [hv] at hb
      exact hb
    · rw [if_neg hnw] at h; exact Option.noConfusion h

/-- C4 counterexample: with current year 2026, the header "posted 2028"
carries year current-year+2, yet the ranker returns "2028" via the
numeric bare-year pattern rather than rejecting it to null — the
upper year bound is not applied on the numeric fallback path. -/
theorem C4_counterexample :
    findRankedDate 2026 (txt "posted 2028") (txt "") = some (txt "2028") ∧
    2028 = 2026 + 2 := ⟨rfl, rfl⟩

/-- C4 (amended): `toISO` rejects any year outside `[1900, now+1]` (so
all month-name date shapes obey both bounds), and the numeric patterns
constrain their captured year only to the regex range `[1900, 2099]` —
the lower bound therefore holds everywhere (year 1899 is unmatchable and
"posted 1899" yields null), but the upper bound `now+1` is not enforced
on the numeric path. -/
theorem C4_year_bounds :
    (∀ (now : Nat) (y : Str) (m d : Option Str) (Y : Int), jsParseInt y = some Y →
        (Y < 1900 ∨ (now : Int) + 1 < Y) → toISO now y m d = none) ∧
    (∀ (s : Str) (Y M D : Nat), scanNum numPat1At none s = some (Y, M, D) →
        1900 ≤ Y ∧ Y ≤ 2099) ∧
    (∀ (s : Str) (a b Y : Nat), scanNum numPat2At none s = some (a, b, Y) →
        1900 ≤ Y ∧ Y ≤ 2099) ∧
    (∀ (s : Str) (Y M : Nat), scanNum numPat3At none s = some (Y, M) →
        1900 ≤ Y ∧ Y ≤ 2099) ∧
    (∀ (s v : Str), scanNum numPat4At none s = some v →
        1900 ≤ natOfDigits v ∧ natOfDigits v ≤ 2099) ∧
    findRankedDate 2026 (txt "posted 1899") (txt "") = none := by
  refine ⟨?_, ?_, ?_, ?_, ?_, rfl⟩
  · intro now y m d Y hY hb
    unfold toISO
    rw [hY]
    dsimp only
    have hc : (decide (Y < 1900) || decide (Y > (now : Int) + 1)) = true := by
      rcases hb with hb | hb
      · have hd := decide_eq_true hb
        simp [hd]
      · have hd : decide (Y > (now : Int) + 1) = true := decide_eq_true hb
        simp [hd]
    rw [hc]
    rfl
  · intro s Y M D h
    obtain ⟨u, hu⟩ := scanNum_inv h
    exact numPat1At_year hu
  · intro s a b Y h
    obtain ⟨u, hu⟩ := scanNum_inv h
    exact numPat2At_year hu
  · intro s Y M h
    obtain ⟨u, hu⟩ := scanNum_inv h
    exact numPat3At_year hu
  · intro s v h
    obtain ⟨u, hu⟩ := scanNum_inv h
    exact numPat4At_year hu

/-- C4 witness: the bounds applied at concrete matches — a year of
current-year+2 makes `toISO` fail, and each numeric pattern's captured
year is within the regex range. -/
theorem C4_witness :
    toISO 2026 (txt "2028") none none = none ∧
    (1900 ≤ (2024 : Nat) ∧ (2024 : Nat) ≤ 2099) ∧
    (1900 ≤ (2023 : Nat) ∧ (2023 : Nat) ≤ 2099) ∧
    (1900 ≤ natOfDigits (txt "2028") ∧ natOfDigits (txt "2028") ≤ 2099) :=
  ⟨C4_year_bounds.1 2026 (txt "2028") none none 2028 (by decide) (Or.inr (by decide)),
   C4_year_bounds.2.1 (txt "2024-05-13") 2024 5 13 (by decide),
   C4_year_bounds.2.2.1 (txt "05/06/2023") 5 6 2023 (by decide),
   C4_year_bounds.2.2.2.2.1 (txt "in 2028") (txt "2028") (by decide)⟩

lemma zoneEndLoop_finds (lines : List Str) (stop : Nat) :
    ∀ (fuel i k : Nat), i ≤ k → k < stop → k - i < fuel → stopLine lines k = true →
      (∀ j, i ≤ j → j < k → stopLine lines j = false) →
      zoneEndLoop lines stop fuel i = some k := by
  intro fuel
  induction fuel with
  | zero => intro i k h1 h2 h3 _ _; omega
  | succ f ih =>
    intro i k h1 h2 h3 hk hall
    simp only [zoneEndLoop]
    rw [if_pos (show i < stop by omega)]
    by_cases hik : i = k
    · subst hik
      rw [if_pos hk]
    · have hi : stopLine lines i = false := hall i le_rfl (by omega)
      rw [if_neg (by simp [hi])]
      exact ih (i + 1) k (by omega) h2 (by omega) hk (fun j hj1 hj2 => hall j (by omega) hj2)

lemma zoneEndLoop_misses (lines : List Str) (stop : Nat) :
    ∀ (fuel i : Nat), (∀ k, i ≤ k → k < stop → stopLine lines k = false) →
      zoneEndLoop lines stop fuel i = none := by
  intro fuel
  induction fuel with
  | zero => intro i _; rfl
  | succ f ih =>
    intro i hall
    simp only [zoneEndLoop]
    by_cases hi : i < stop
    · rw [if_pos hi]
      rw [if_neg (by simp [hall i le_rfl hi])]
      exact ih (i + 1) (fun k hk1 hk2 => hall k (by omega) hk2)
    · rw [if_neg hi]

/-- C7 (amended): the zone is the joined lines in `[start, end)`, and the
end index is the index of the FIRST stop-cue line found within the next
40 lines whenever one exists — even when that index exceeds `start+12` —
with `min(length, start+12)` used only when no stop cue occurs in the
40-line window. -/
theorem C7_zone_end :
    (∀ header, sliceAuthorZone header =
        joinNL (((zoneLines header).drop (zoneStart (zoneLines header))).take
          (zoneEnd (zoneLines header) (zoneStart (zoneLines header)) -
            zoneStart (zoneLines header)))) ∧
    (∀ (lines : List Str) (start k : Nat), start ≤ k → k < min lines.length (start + 40) →
        stopLine lines k = true → (∀ j, start ≤ j → j < k → stopLine lines j = false) →
        zoneEnd lines start = k) ∧
    (∀ (lines : List Str) (start : Nat),
        (∀ k, start ≤ k → k < min lines.length (start + 40) → stopLine lines k = false) →
        zoneEnd lines start = min lines.length (start + 12)) := by
  refine ⟨fun header => rfl, ?_, ?_⟩
  · intro lines start k h1 h2 h3 h4
    unfold zoneEnd
    rw [zoneEndLoop_finds lines (min lines.length (start + 40)) _ start k h1 h2 (by omega) h3 h4]
  · intro lines start hall
    unfold zoneEnd
    rw [zoneEndLoop_misses lines (min lines.length (start + 40)) _ start hall]

/-- C7 counterexample: the locator finds the title at line 0 and starts
the zone at line 1; the first stop-cue line is index 16, which is within
the 40-line window but beyond start+12 = 13, and the zone end becomes 16
— not the claimed "earliest of (start+12) and the first stop cue" (13) —
so the returned zone differs from the claimed one. -/
theorem C7_counterexample :
    titleScan (zoneLines C7hdr) = some 0 ∧
    zoneStart (zoneLines C7hdr) = 1 ∧
    (List.range 16).all (fun j => !stopLine (zoneLines C7hdr) j) = true ∧
    stopLine (zoneLines C7hdr) 16 = true ∧
    zoneEnd (zoneLines C7hdr) 1 = 16 ∧
    min (zoneLines C7hdr).length (1 + 12) = 13 ∧
    sliceAuthorZone C7hdr ≠ joinNL (((zoneLines C7hdr).drop 1).take (13 - 1)) :=
  ⟨rfl, rfl, rfl, rfl, rfl, rfl, by decide⟩

/-- C7 witness: the amended characterization applied at a three-line
header (zone = joined slice), at a first stop cue found at index 2 from
start 1, and at a one-line header with no stop cue (fallback end). -/
theorem C7_witness :
    sliceAuthorZone (txt "t\na\nAbstract") =
      joinNL (((zoneLines (txt "t\na\nAbstract")).drop
          (zoneStart (zoneLines (txt "t\na\nAbstract")))).take
        (zoneEnd (zoneLines (txt "t\na\nAbstract"))
            (zoneStart (zoneLines (txt "t\na\nAbstract"))) -
          zoneStart (zoneLines (txt "t\na\nAbstract")))) ∧
    zoneEnd [txt "t", txt "a", txt "Abstract"] 1 = 2 ∧
    zoneEnd [txt "x"] 0 = min ([txt "x"] : List Str).length (0 + 12) :=
  ⟨C7_zone_end.1 (txt "t\na\nAbstract"),
   C7_zone_end.2.1 [txt "t", txt "a", txt "Abstract"] 1 2 (by decide) (by decide) (by decide)
     (fun j hj1 hj2 => by
       have hj : j = 1 := by omega
       subst hj
       decide),
   C7_zone_end.2.2 [txt "x"] 0 (fun k hk1 hk2 => by
       have hl : ([txt "x"] : List Str).length = 1 := rfl
       rw [hl] at hk2
       have hk : k = 0 := by omega
       subst hk
       decide)⟩
